import Mathlib

/-!
Verification of the StatsPerform parsing routines of `floodlight/io/statsperform.py`:
a shallow embedding of the source functions (segment/period resolution, framerate
estimation, teamsheet construction, event binning and position-array scattering)
together with proofs about them.  Machine floats are modelled by rationals, the
not-a-number missing sentinel by `Option.none`, and code paths that raise a Python
exception by functions returning `Option`.
-/

/-- Python `int()` applied to a rational value: truncation toward zero
(`Int.tdiv` is the rounding-toward-zero division). -/
def pyInt (q : ℚ) : ℤ := Int.tdiv q.num (q.den : ℤ)

/-- `np.floor`, returning the floor as a (rational) float (`Int.fdiv` is the
rounding-toward-minus-infinity division). -/
def npFloor (q : ℚ) : ℚ := ((Int.fdiv q.num (q.den : ℤ) : ℤ) : ℚ)

/-- Python `int()` on a decimal digit string (as applied to jersey-number strings). -/
def pyIntOfString (s : String) : ℤ :=
  ((s.data.foldl (fun n c => 10 * n + (c.toNat - Char.toNat '0')) 0 : ℕ) : ℤ)

/-- Helper of `uniqueFirst`: keep each value not seen before, first occurrences first. -/
def uniqueFirstAux {α : Type} [DecidableEq α] (seen : List α) : List α → List α
  | [] => []
  | x :: xs =>
    if x ∈ seen then uniqueFirstAux seen xs else x :: uniqueFirstAux (x :: seen) xs

/-- `pandas.unique`: the distinct values of a column, in order of first appearance. -/
def uniqueFirst {α : Type} [DecidableEq α] (l : List α) : List α := uniqueFirstAux [] l

/-! ## Segment/period resolver (`_create_metadata_from_open_csv_df`, lines 52-64) -/

/-- Forward difference of the frame sequence with its first value prepended
(`np.diff(frame_values, prepend=frame_values[0])`); the difference at index 0 is 0. -/
def diffPrepend (v : List ℤ) (i : ℕ) : ℤ :=
  if i = 0 then 0 else v.getD i 0 - v.getD (i - 1) 0

/-- `np.where(np.diff(frame_values, prepend=frame_values[0]) > 1)`: the indices at
which the forward difference exceeds 1. -/
def cutIdx (v : List ℤ) : List ℕ :=
  (List.range v.length).filter (fun i => decide (1 < diffPrepend v i))

/-- The boundary index list after `np.insert(seg_idx, 0, 0)` and
`np.append(seg_idx, len(frame_values))`. -/
def segIdxFull (v : List ℤ) : List ℕ := (0 :: cutIdx v) ++ [v.length]

/-- The `periods` dictionary built by `_create_metadata_from_open_csv_df` (its keys
are the consecutive integers `0..n-1`, modelled by list position): for each pair of
consecutive boundary indices the inclusive bounds
`(frame_values[seg_idx[k]], frame_values[seg_idx[k+1] - 1])`. -/
def createPeriods (v : List ℤ) : List (ℤ × ℤ) :=
  (List.range ((segIdxFull v).length - 1)).map (fun k =>
    (v.getD ((segIdxFull v).getD k 0) 0, v.getD ((segIdxFull v).getD (k + 1) 0 - 1) 0))

/-- The periods part of `_create_metadata_from_open_csv_df` applied to the raw
`frame_count` column: the column is deduplicated (`unique`) first.  The pitch part
of the function is not modelled. -/
def createMetadataPeriods (frameCol : List ℤ) : List (ℤ × ℤ) :=
  createPeriods (uniqueFirst frameCol)

/-- The least index of `v` at which the forward difference exceeds 1, if any. -/
def firstGap (v : List ℤ) : Option ℕ :=
  (List.range v.length).find? (fun i => decide (1 < diffPrepend v i))

/-- Specification-side segment splitter: split the sequence into maximal runs
inside which the forward difference never exceeds 1. -/
def splitRuns (v : List ℤ) : List (List ℤ) :=
  match h : firstGap v with
  | none => if v = [] then [] else [v]
  | some c => v.take c :: splitRuns (v.drop c)
termination_by v.length
decreasing_by
  simp only [firstGap] at h
  have hp := List.find?_some h
  have hc : c ∈ List.range v.length := List.mem_of_find?_eq_some h
  have hc0 : c ≠ 0 := by
    intro h0
    rw [h0] at hp
    simp [diffPrepend] at hp
  have hlt : c < v.length := List.mem_range.mp hc
  simp only [List.length_drop]
  omega

/-- Specification-side periods: the inclusive (first, last) bounds of each maximal
run of the sequence. -/
def segmentsSpec (v : List ℤ) : List (ℤ × ℤ) :=
  (splitRuns v).map (fun r => (r.headD 0, r.getLastD 0))

/-- `createPeriods` written with `zipWith` over consecutive boundary pairs. -/
def periodsZip (v : List ℤ) : List (ℤ × ℤ) :=
  List.zipWith (fun a b => (v.getD a 0, v.getD (b - 1) 0)) (segIdxFull v) (segIdxFull v).tail

/-! ## StatsPerform txt tracking format (`_read_tracking_data_txt_single_line`,
lines 498-580).  A line is modelled after the colon/semicolon/comma splits: a time
chunk (gameclock in milliseconds and segment id), the player chunks, and the
optional ball chunk. -/

/-- One player chunk of a txt tracking line: `team_code, pID, jID, x, y`. -/
structure PlayerChunk where
  teamCode : String
  pID : String
  jID : String
  x : ℚ
  y : ℚ
deriving DecidableEq

/-- One line of StatsPerform's txt tracking file.  `ballChunk` is `none` exactly
when the line has fewer than three colon-separated chunk groups. -/
structure TxtLine where
  gameclock : ℤ
  segment : ℤ
  playerChunks : List PlayerChunk
  ballChunk : Option (ℚ × ℚ × ℚ)
deriving DecidableEq

/-- Team of a player chunk (source lines 556-562): codes "0"/"3" are Home,
"1"/"4" are Away, anything else "Other". -/
def teamOfCode (code : String) : String :=
  if code = "0" ∨ code = "3" then "Home"
  else if code = "1" ∨ code = "4" then "Away"
  else "Other"

/-- Python dict assignment `d[k] = v`: overwrite the value of an existing key in
place, append a new key at the end. -/
def dictSet {α β : Type} [DecidableEq α] (d : List (α × β)) (k : α) (v : β) :
    List (α × β) :=
  if (d.lookup k).isSome then d.map (fun p => if p.1 = k then (k, v) else p)
  else d ++ [(k, v)]

/-- The `positions[team]` dictionary built by `_read_tracking_data_txt_single_line`:
jersey-number string to (x, y); a later chunk with the same jersey overwrites the
earlier value. -/
def linePositions (l : TxtLine) (team : String) : List (String × (ℚ × ℚ)) :=
  (l.playerChunks.filter (fun c => teamOfCode c.teamCode = team)).foldl
    (fun d c => dictSet d c.jID (c.x, c.y)) []

/-- The ball dictionary of `_read_tracking_data_txt_single_line`: the key
"position" holds (x, y) exactly when the line has a ball chunk (z is dropped). -/
def lineBall (l : TxtLine) : Option (ℚ × ℚ) :=
  l.ballChunk.map (fun b => (b.1, b.2.1))

/-! ## Teamsheets (`read_teamsheets_from_tracking_data_txt`, lines 775-815, and
`read_teamsheets_from_open_data_csv`, lines 131-184) -/

/-- Lexicographic code-point comparison of character lists: the order Python uses
to compare strings (a strict prefix sorts first). -/
def charListLe : List Char → List Char → Bool
  | [], _ => true
  | _ :: _, [] => false
  | a :: as, b :: bs =>
    if a.toNat < b.toNat then true
    else if b.toNat < a.toNat then false
    else charListLe as bs

/-- Python string comparison `a <= b`: lexicographic by code point. -/
def pyStrLe (a b : String) : Bool := charListLe a.data b.data

/-- Python `list.sort()` on strings: ascending lexicographic (code-point) order.
The comparator is total and transitive, so insertion sort produces the same
sorted list as Python's sort. -/
def sortStrings (l : List String) : List String :=
  List.insertionSort (fun a b => pyStrLe a b = true) l

/-- `_read_jersey_numbers_from_tracking_data_txt` (lines 660-697) for one team:
the distinct jersey-number strings seen for the team over all lines.  The Python
set is modelled as the first-appearance list of the accumulated union; only its
membership matters, since the caller sorts it. -/
def jerseyNumbersTxt (lines : List TxtLine) (team : String) : List String :=
  uniqueFirst ((lines.map (fun l => (linePositions l team).map Prod.fst)).flatten)

/-- A teamsheet derived from a txt tracking file: the `player` and `jID` columns. -/
structure TeamsheetTxt where
  player : List String
  jID : List ℤ
deriving DecidableEq

/-- `read_teamsheets_from_tracking_data_txt` (lines 775-815) for one team: sort the
jersey strings (as Python sorts strings: lexicographically), synthesize the
placeholder names "player i", and convert the jersey strings with `int`. -/
def readTeamsheetTxt (lines : List TxtLine) (team : String) : TeamsheetTxt :=
  let jIDs := sortStrings (jerseyNumbersTxt lines team)
  { player := (List.range jIDs.length).map (fun i => "player " ++ toString i)
    jID := jIDs.map pyIntOfString }

/-- One row of the open StatsPerform csv file: the columns the modelled readers
use.  A NaN `team_id` (the csv's empty cells) is modelled as `none`. -/
structure CsvRow where
  team_id : Option ℚ
  player_id : String
  jersey_no : ℚ
  frame_count : ℤ
  pos_x : ℚ
  pos_y : ℚ
  possession : ℚ
deriving DecidableEq

/-- A teamsheet derived from the open csv file: `player`, `jID`, `pID`, `tID`. -/
structure TeamsheetCsv where
  player : List String
  jID : List ℚ
  pID : List String
  tID : ℚ
deriving DecidableEq

/-- `read_teamsheets_from_open_data_csv` (lines 131-184) for one team id: `player`
and `pID` are the distinct player ids in order of first appearance, `jID` the
distinct jersey numbers in order of first appearance (no sorting, no placeholder
names).  `none` models the DataFrame length-mismatch error raised when the
distinct-jersey count differs from the distinct-player count. -/
def readTeamsheetCsv (rows : List CsvRow) (teamId : ℚ) : Option TeamsheetCsv :=
  let teamRows := rows.filter (fun r => decide (r.team_id = some teamId))
  let players := uniqueFirst (teamRows.map (fun r => r.player_id))
  let jIDs := uniqueFirst (teamRows.map (fun r => r.jersey_no))
  if jIDs.length = players.length then
    some { player := players, jID := jIDs, pID := players, tID := teamId }
  else none

/-! ## Open event csv (`_read_open_event_csv_single_line`, lines 67-128, and
`read_open_event_data_csv`, lines 187-298) -/

/-- One comma-split line of the open StatsPerform event csv, with the two numeric
time fields already converted (the `float()` of well-formed cells). -/
structure OpenEventLine where
  event_id : String
  frameclock : ℚ
  current_phase : String
  gameclock : ℚ
  description : String
  event_type_id : String
  sequencenumber : String
  pID : String
  tID : String
  jersey_no : String
  is_pass : String
  is_cross : String
  is_corner : String
  is_free_kick : String
  is_goal_kick : String
  passtypeid : String
  wintypeid : String
  savetypeid : String
  possessionnumber : String
deriving DecidableEq

/-- The event dictionary built by `_read_open_event_csv_single_line`; the
`np.nan` outcome is modelled as `none`. -/
structure OpenEvent where
  eID : String
  gameclock : ℚ
  frameclock : ℚ
  tID : String
  pID : String
  outcome : Option ℤ
  minute : ℚ
  second : ℚ
  qualifier : List (String × String)
deriving DecidableEq

/-- `_read_open_event_csv_single_line` (lines 67-128): the event dictionary
together with the team and segment strings of the line. -/
def readOpenEventCsvSingleLine (l : OpenEventLine) : OpenEvent × String × String :=
  let eID := l.description.replace " " ""
  let outcome : Option ℤ :=
    if "Won" ∈ l.description.splitOn " " then some 1
    else if "Lost" ∈ l.description.splitOn " " then some 0
    else none
  let minute := npFloor (l.gameclock / 60)
  let second := npFloor (l.gameclock - minute * 60)
  let qualifier := [("event_id", l.event_id), ("event_type_id", l.event_type_id),
    ("sequencenumber", l.sequencenumber), ("jersey_no", l.jersey_no),
    ("is_pass", l.is_pass), ("is_cross", l.is_cross), ("is_corner", l.is_corner),
    ("is_free_kick", l.is_free_kick), ("is_goal_kick", l.is_goal_kick),
    ("passtypeid", l.passtypeid), ("wintypeid", l.wintypeid),
    ("savetypeid", l.savetypeid), ("possessionnumber", l.possessionnumber)]
  (⟨eID, l.gameclock, l.frameclock, l.tID, l.pID, outcome, minute, second, qualifier⟩,
    l.tID, l.current_phase)

/-- The nested `events[team][segment]` bins of `read_open_event_data_csv`
(team keys 1.0 and 2.0, segment keys "1" and "2"). -/
def OpenEventBins : Type := ℚ → String → List OpenEvent

/-- The initially empty bins. -/
def emptyOpenEventBins : OpenEventBins := fun _ _ => []

/-- `float(team)` restricted to the strings whose float value is a key of the
bins: "1"/"1.0" map to 1.0, "2"/"2.0" to 2.0.  Any other nonempty team string
raises (float conversion error or KeyError), modelled as `none`. -/
def teamKeyOfString (s : String) : Option ℚ :=
  if s = "1" ∨ s = "1.0" then some 1
  else if s = "2" ∨ s = "2.0" then some 2
  else none

/-- One loop iteration of `read_open_event_data_csv` (lines 250-274): skip the
header line, parse the line, and append the event to the parsed team's segment
bin — or to BOTH teams' bins when the team string is empty.  `none` models a
KeyError on an unknown team or segment key. -/
def openEventStep (bins : OpenEventBins) (l : OpenEventLine) : Option OpenEventBins :=
  if l.current_phase = "current_phase" then some bins
  else
    let parsed := readOpenEventCsvSingleLine l
    let event := parsed.1
    let team := parsed.2.1
    let segment := parsed.2.2
    if segment = "1" ∨ segment = "2" then
      if team ≠ "" then
        match teamKeyOfString team with
        | none => none
        | some t =>
          some (fun t2 s2 =>
            if t2 = t ∧ s2 = segment then bins t2 s2 ++ [event] else bins t2 s2)
      else
        some (fun t2 s2 =>
          if (t2 = 1 ∨ t2 = 2) ∧ s2 = segment then bins t2 s2 ++ [event]
          else bins t2 s2)
    else none

/-- The loop of `read_open_event_data_csv` over all lines. -/
def openEventFold (lines : List OpenEventLine) : Option OpenEventBins :=
  lines.foldlM openEventStep emptyOpenEventBins

/-- `read_open_event_data_csv` (lines 187-298), events part: the four returned
Events tables `(home_ht1, home_ht2, away_ht1, away_ht2)`.  The source assembles
ALL FOUR objects from the home team's bins (`events[team_ids["Home"]]`, lines
276-288); the away bins are never read at assembly. -/
def readOpenEventDataCsv (lines : List OpenEventLine) :
    Option (List OpenEvent × List OpenEvent × List OpenEvent × List OpenEvent) := do
  let bins ← openEventFold lines
  some (bins 1 "1", bins 1 "2", bins 1 "1", bins 1 "2")

/-! ## Event data xml (`read_event_data_xml`, lines 818-984) -/

/-- A Python value used as a dictionary key: the outer `links_pID_to_team`
dictionary has string keys while the event loop looks it up with an integer pID
(or None when IdActor1 is missing), so the kinds must be distinguishable. -/
inductive PyKey where
  | str (s : String)
  | int (n : ℤ)
  | pynone
deriving DecidableEq

/-- Python `dict.get(key, None)` on an association list. -/
def pyDictGet {β : Type} (d : List (PyKey × β)) (k : PyKey) : Option β :=
  (d.find? (fun p => decide (p.1 = k))).map Prod.snd

/-- The Python key corresponding to an optional integer pID. -/
def pyKeyOfOptInt : Option ℤ → PyKey
  | some n => PyKey.int n
  | none => PyKey.pynone

/-- Modelled from the spec: `get_and_convert` (floodlight.io.utils, whose code is
not under src/) — per spec §4.1, "absent values default to a 'missing' sentinel":
it returns `dic.get(key, default)` converted with the given type, the default
being None; `str(None)` is the string "None".  This is its `str` instantiation as
used at source line 908; `toStr` renders a found value (for the reader's
dictionary the lookup provably always misses, so `toStr` is never applied). -/
def getAndConvertStr {β : Type} (d : List (PyKey × β)) (k : PyKey)
    (toStr : β → String) : String :=
  match pyDictGet d k with
  | some v => toStr v
  | none => "None"

/-- The `links_pID_to_team` dictionary of `read_event_data_xml` (lines 887-890):
an outer dictionary with the string keys "Home" and "Away" holding the per-team
inner dictionaries. -/
def linksPIDToTeam (homePIDs awayPIDs : List (Option ℤ)) :
    List (PyKey × List (PyKey × String)) :=
  [(PyKey.str "Home", homePIDs.map (fun p => (pyKeyOfOptInt p, "Home"))),
   (PyKey.str "Away", awayPIDs.map (fun p => (pyKeyOfOptInt p, "Away")))]

/-- The team assignment of `read_event_data_xml` (line 908):
`get_and_convert(links_pID_to_team, pID, str)` — the lookup key is the pID while
the outer dictionary's keys are the team name strings. -/
def xmlEventTeam (links : List (PyKey × List (PyKey × String)))
    (pID : Option ℤ) : String :=
  getAndConvertStr links (pyKeyOfOptInt pID) (fun _ => "")

/-- The attributes of one xml `Event` element after `get_and_convert`: a missing
or unconvertible numeric attribute is `none`; `eventName` is `none` when the
EventName attribute is missing (its `str` conversion then yields "None").
`attribs` holds the raw attribute pairs used for the qualifier dictionary. -/
structure XmlEvent where
  pID : Option ℤ
  time : Option ℤ
  eventName : Option String
  locationX : Option ℚ
  locationY : Option ℚ
  targetX : Option ℚ
  targetY : Option ℚ
  attribs : List (String × String)
deriving DecidableEq

/-- The per-team, per-segment column lists of `read_event_data_xml`
(the `columns` list, lines 854-865). -/
structure XmlEventColumns where
  eID : List String
  gameclock : List ℚ
  pID : List (Option ℤ)
  minute : List ℚ
  second : List ℚ
  at_x : List (Option ℚ)
  at_y : List (Option ℚ)
  to_x : List (Option ℚ)
  to_y : List (Option ℚ)
  qualifier : List (List (String × String))
deriving DecidableEq

/-- The empty column lists. -/
def emptyXmlEventColumns : XmlEventColumns := ⟨[], [], [], [], [], [], [], [], [], []⟩

/-- Append one event's values to every column list (the per-column appends of
lines 917-948, which all run under the same `teams_assigned`). -/
def appendXmlEvent (c : XmlEventColumns) (e : XmlEvent)
    (gameclock minute second : ℚ) : XmlEventColumns :=
  { eID := c.eID ++ [e.eventName.getD "None"]
    gameclock := c.gameclock ++ [gameclock]
    pID := c.pID ++ [e.pID]
    minute := c.minute ++ [minute]
    second := c.second ++ [second]
    at_x := c.at_x ++ [e.locationX]
    at_y := c.at_y ++ [e.locationY]
    to_x := c.to_x ++ [e.targetX]
    to_y := c.to_y ++ [e.targetY]
    qualifier := c.qualifier ++ [e.attribs] }

/-- One iteration of the event loop of `read_event_data_xml` (lines 903-948) for a
fixed segment: resolve the team, then append the event's values to the chosen
team lists — to BOTH teams when the team string is "None".  `none` models the
`TypeError` raised when the Time attribute is missing (`None / 1000`). -/
def xmlEventStep (links : List (PyKey × List (PyKey × String)))
    (home away : XmlEventColumns) (e : XmlEvent) :
    Option (XmlEventColumns × XmlEventColumns) :=
  let team := xmlEventTeam links e.pID
  match e.time with
  | none => none
  | some t =>
    let gameclock : ℚ := (t : ℚ) / 1000
    let minute := npFloor (gameclock / 60)
    let second := npFloor (gameclock - minute * 60)
    if team = "None" then
      some (appendXmlEvent home e gameclock minute second,
        appendXmlEvent away e gameclock minute second)
    else if team = "Home" then
      some (appendXmlEvent home e gameclock minute second, away)
    else if team = "Away" then
      some (home, appendXmlEvent away e gameclock minute second)
    else none

/-! ## `_read_time_information_from_tracking_data_txt` (lines 583-657) -/

/-- The loop state of `_read_time_information_from_tracking_data_txt`:
`startframes`/`endframes` dictionaries, the running framerate estimate, the last
gameclock and segment seen, and the number of framerate warnings emitted. -/
structure TimeInfoState where
  startframes : List (ℤ × ℤ)
  endframes : List (ℤ × ℤ)
  framerate : Option ℤ
  lastGameclock : Option ℤ
  lastSegment : Option ℤ
  warnings : ℕ
deriving DecidableEq

/-- The initial loop state. -/
def timeInfoInit : TimeInfoState := ⟨[], [], none, none, none, 0⟩

/-- The period-dictionary update at the top of the loop of
`_read_time_information_from_tracking_data_txt` (lines 621-624): on the first
line of a new segment, record its start and close the previous segment. -/
def timeInfoPeriodsUpdate (st : TimeInfoState) (l : TxtLine) : TimeInfoState :=
  if (st.startframes.lookup l.segment).isSome then st
  else
    { st with
      startframes := st.startframes ++ [(l.segment, l.gameclock)]
      endframes :=
        match st.lastGameclock, st.lastSegment with
        | some g, some s => dictSet st.endframes s g
        | _, _ => st.endframes }

/-- One iteration of the loop of `_read_time_information_from_tracking_data_txt`
(lines 615-644): update the period dictionaries, then estimate the framerate from
`int(1000 / delta)` of the absolute gameclock delta.  Returns `none` when the
delta is zero (the unguarded division raises `ZeroDivisionError`). -/
def timeInfoStep (st : TimeInfoState) (l : TxtLine) : Option TimeInfoState :=
  let st1 := timeInfoPeriodsUpdate st l
  match st.lastGameclock with
  | none =>
    some { st1 with lastGameclock := some l.gameclock, lastSegment := some l.segment }
  | some g =>
    let delta : ℤ := |l.gameclock - g|
    if delta = 0 then none
    else
      -- int(1000 / delta): over exact arithmetic, Python float division of the
      -- integer 1000 by the integer delta followed by int() truncation is the
      -- rounding-toward-zero integer division
      let est : ℤ := Int.tdiv 1000 delta
      let st2 :=
        match st1.framerate with
        | none => { st1 with framerate := some est }
        | some f =>
          if f ≠ est ∧ st1.lastSegment = some l.segment then
            { st1 with framerate := some est, warnings := st1.warnings + 1 }
          else st1
      some { st2 with lastGameclock := some l.gameclock, lastSegment := some l.segment }

/-- The loop of `_read_time_information_from_tracking_data_txt` over all lines. -/
def timeInfoFold (lines : List TxtLine) : Option TimeInfoState :=
  lines.foldlM timeInfoStep timeInfoInit

/-- `_read_time_information_from_tracking_data_txt`: the periods dictionary
(segment key, inclusive start/end gameclock), the estimated framerate, and the
number of framerate warnings.  `none` models an uncaught exception (zero delta,
or a segment whose end was never recorded at assembly time). -/
def readTimeInfo (lines : List TxtLine) :
    Option (List (ℤ × ℤ × ℤ) × Option ℤ × ℕ) := do
  let st ← timeInfoFold lines
  let endf :=
    match st.lastGameclock, st.lastSegment with
    | some g, some s => dictSet st.endframes s g
    | _, _ => st.endframes
  let periods ← st.startframes.mapM (fun p =>
    match endf.lookup p.1 with
    | some e => some (p.1, p.2, e)
    | none => none)
  some (periods, st.framerate, st.warnings)

/-! ## Position arrays -/

/-- An `np.full((rows, cols), np.nan)`-style coordinate buffer: `data` returns
`none` (the NaN missing sentinel) wherever nothing has been written. -/
structure Buf where
  rows : ℕ
  cols : ℕ
  data : ℕ → ℕ → Option ℚ

/-- A fresh all-NaN buffer. -/
def npFull (rows cols : ℕ) : Buf := ⟨rows, cols, fun _ _ => none⟩

/-- numpy index resolution for a signed index against an axis of size `n`: a
negative index wraps by `n`; an index still out of range raises (`none`). -/
def npIdx (n : ℕ) (i : ℤ) : Option ℕ :=
  let i2 := if i < 0 then i + n else i
  if 0 ≤ i2 ∧ i2 < n then some i2.toNat else none

/-- `buf[start:stop, col] = vals`: numpy row-slice assignment into one column;
raises (`none`) when the value count differs from the slice length or the slice
or column is out of bounds. -/
def sliceAssignCol (b : Buf) (start stop : ℕ) (c : ℤ) (vals : List ℚ) : Option Buf :=
  match npIdx b.cols c with
  | none => none
  | some cn =>
    if vals.length = stop - start ∧ stop ≤ b.rows ∧ start ≤ stop then
      some { b with data := fun r c2 =>
        (if c2 = cn ∧ start ≤ r ∧ r < stop then some (vals.getD (r - start) 0)
         else b.data r c2) }
    else none

/-- `buf[row, col] = v`: a single-cell numpy assignment with index wrapping. -/
def writeCell (b : Buf) (r : ℤ) (c : ℤ) (v : ℚ) : Option Buf :=
  match npIdx b.rows r, npIdx b.cols c with
  | some rn, some cn =>
    some { b with data := fun r2 c2 =>
      (if r2 = rn ∧ c2 = cn then some v else b.data r2 c2) }
  | _, _ => none

/-- `buf[row] = ball.get("position", np.nan)` on a two-column buffer: a present
position writes (x, y) into the row; the NaN default overwrites the row with the
missing sentinel.  Raises (`none`) out of bounds. -/
def writeBallRow (b : Buf) (r : ℤ) (pos : Option (ℚ × ℚ)) : Option Buf :=
  match npIdx b.rows r with
  | none => none
  | some rn =>
    if b.cols = 2 then
      some { b with data := fun r2 c2 =>
        (if r2 = rn ∧ c2 < 2 then
          (match pos with
           | some xy => if c2 = 0 then some xy.1 else some xy.2
           | none => none)
         else b.data r2 c2) }
    else none

/-- Modelled from the spec: `Teamsheet.add_xIDs` and `Teamsheet.get_links`
(floodlight.core.teamsheet, whose code is not under src/) — spec §3: "stable
index (xID) assigned by sorted jersey order ... once assigned immutable for the
match"; §4.2: "Index assignment (xID) ... derived only after roster is
finalized"; §8: "indices are a contiguous range starting at a fixed base".
`add_xIDs` enumerates the finalized roster rows with consecutive indices from
base 0 (the library's documented convention) and `get_links("jID", "xID")` maps
each jersey to its index: the position of the jersey in the teamsheet's jID
column. -/
def linksOfJIDList {α : Type} [DecidableEq α] (jIDs : List α) (j : α) : Option ℕ :=
  jIDs.findIdx? (fun x => decide (x = j))

/-- Python `max` over a list (raises on an empty list). -/
def pyMax (l : List ℕ) : Option ℕ :=
  match l with
  | [] => none
  | x :: xs => some (xs.foldl max x)

/-! ## Open tracking csv (`read_open_tracking_data_csv`, lines 301-492) -/

/-- The (start, end) frame bounds of segment number `s` of the open csv file. -/
def csvPeriod (rows : List CsvRow) (s : ℕ) : ℤ × ℤ :=
  (createMetadataPeriods (rows.map (fun r => r.frame_count))).getD s (0, 0)

/-- The rows of one player, in file order (`team_df[team_df["player_id"] == pID]`). -/
def csvPlayerRows (teamRows : List CsvRow) (p : String) : List CsvRow :=
  teamRows.filter (fun r => decide (r.player_id = p))

/-- The appearance mask (lines 426-431 and 448-450): which frames lie inside the
segment's inclusive bounds. -/
def appearanceMask (period : ℤ × ℤ) (frames : List ℤ) : List Bool :=
  frames.map (fun f => decide (period.1 ≤ f ∧ f ≤ period.2))

/-- numpy boolean-mask selection `values[appearance]`. -/
def maskSelect {α : Type} (vals : List α) (mask : List Bool) : List α :=
  (vals.zip mask).filterMap (fun p => if p.2 then some p.1 else none)

/-- The per-player scatter of `read_open_tracking_data_csv` (lines 418-443): mask
the player's frames to the segment; skip the player when nothing remains;
otherwise take the jersey of the player's first row, resolve the column pair
`(links[jrsy] - 1) * 2` and `+ 1`, and slice-assign the masked x and y values at
the row offsets given by the first and last masked frame.  `none` models a numpy
or lookup error. -/
def csvScatterPlayer (links : ℚ → Option ℕ) (period : ℤ × ℤ)
    (teamRows : List CsvRow) (b : Buf) (p : String) : Option Buf :=
  let pl := csvPlayerRows teamRows p
  let frames := pl.map (fun r => r.frame_count)
  let app := appearanceMask period frames
  let fa := maskSelect frames app
  if fa = [] then some b
  else
    match pl.head? with
    | none => none
    | some r0 =>
      let jrsy := pyInt r0.jersey_no
      match links ((jrsy : ℤ) : ℚ) with
      | none => none
      | some xid =>
        let xCol : ℤ := ((xid : ℤ) - 1) * 2
        let yCol : ℤ := ((xid : ℤ) - 1) * 2 + 1
        let start := (fa.headD 0 - period.1).toNat
        let stop := (fa.getLastD 0 - period.1 + 1).toNat
        do
          let b1 ← sliceAssignCol b start stop xCol
            (maskSelect (pl.map (fun r => r.pos_x)) app)
          sliceAssignCol b1 start stop yCol
            (maskSelect (pl.map (fun r => r.pos_y)) app)

/-- The team loop of `read_open_tracking_data_csv` for one team and segment:
scatter every distinct player of the team into the buffer. -/
def csvScatterTeam (links : ℚ → Option ℕ) (period : ℤ × ℤ)
    (teamRows : List CsvRow) (b : Buf) : Option Buf :=
  (uniqueFirst (teamRows.map (fun r => r.player_id))).foldlM
    (fun b p => csvScatterPlayer links period teamRows b p) b

/-- The team part of `read_open_tracking_data_csv` (lines 375-443) for one team
and segment, on the default path where the teamsheets are derived from the same
file: allocate the `(number_of_frames, number_of_players * 2)` NaN buffer and
scatter each player into it. -/
def csvTeamBuffer (rows : List CsvRow) (teamId : ℚ) (s : ℕ) : Option Buf := do
  let ts ← readTeamsheetCsv rows teamId
  let period := csvPeriod rows s
  let nFrames := (period.2 - period.1 + 1).toNat
  let b := npFull nFrames (ts.jID.length * 2)
  csvScatterTeam (linksOfJIDList ts.jID) period
    (rows.filter (fun r => decide (r.team_id = some teamId))) b

/-- The ball part of `read_open_tracking_data_csv` (lines 445-452) for one
segment: allocate the `(number_of_frames, 2)` NaN buffer, mask the ball rows
(team id 4) to the segment, and assign the masked `pos_x` values to BOTH buffer
columns — the y column is read from `pos_x` as well (line 452). -/
def csvBallBuffer (rows : List CsvRow) (s : ℕ) : Option Buf := do
  let period := csvPeriod rows s
  let nFrames := (period.2 - period.1 + 1).toNat
  let ballRows := rows.filter (fun r => decide (r.team_id = some 4))
  let frames := ballRows.map (fun r => r.frame_count)
  let app := appearanceMask period frames
  let vals := maskSelect (ballRows.map (fun r => r.pos_x)) app
  let b := npFull nFrames 2
  let b1 ← sliceAssignCol b 0 b.rows 0 vals
  sliceAssignCol b1 0 b1.rows 1 vals

/-! ## `read_tracking_data_txt` (lines 987-1139) -/

/-- The three buffer dictionaries (`xydata`) of `read_tracking_data_txt`, keyed by
segment id. -/
structure TxtXYData where
  home : List (ℤ × Buf)
  away : List (ℤ × Buf)
  ball : List (ℤ × Buf)

/-- Replace the buffer stored under a segment key. -/
def updateBuf (l : List (ℤ × Buf)) (k : ℤ) (b : Buf) : List (ℤ × Buf) :=
  l.map (fun p => if p.1 = k then (k, b) else p)

/-- `int((gameclock - start) / 1000 * framerate)`: over exact arithmetic, the
float expression truncated by `int()` equals the rounding-toward-zero division of
the integer product by 1000. -/
def frameRelOf (gameclock start fr : ℤ) : ℤ :=
  Int.tdiv ((gameclock - start) * fr) 1000

/-- `int((end - start) / 1000 * framerate_est) + 1`, the per-segment frame count
of `read_tracking_data_txt` (lines 1060-1064). -/
def txtNumFrames (period : ℤ × ℤ) (fr : ℤ) : ℕ :=
  (Int.tdiv ((period.2 - period.1) * fr) 1000).toNat + 1

/-- Scatter the player positions of one line for one team (lines 1108-1115): for
each jersey in the line's position dictionary, write x and y into the columns
`(links[int(jID)] - 1) * 2` and `+ 1` of the row `frame_rel`. -/
def txtScatterLineTeam (links : ℤ → Option ℕ) (b : Buf) (frameRel : ℤ)
    (positions : List (String × (ℚ × ℚ))) : Option Buf :=
  positions.foldlM (fun b kv =>
    match links (pyIntOfString kv.1) with
    | none => none
    | some xid => do
      let b1 ← writeCell b frameRel (((xid : ℤ) - 1) * 2) kv.2.1
      writeCell b1 frameRel (((xid : ℤ) - 1) * 2 + 1) kv.2.2) b

/-- One iteration of the scatter loop of `read_tracking_data_txt` (lines
1089-1118): resolve the line's segment bounds and relative frame, write both
teams' positions, then write the ball row (the NaN default when the line has no
ball chunk). -/
def txtLineStep (homeLinks awayLinks : ℤ → Option ℕ)
    (periods : List (ℤ × ℤ × ℤ)) (fr : ℤ) (xy : TxtXYData) (l : TxtLine) :
    Option TxtXYData := do
  let per ← periods.lookup l.segment
  let frameRel := frameRelOf l.gameclock per.1 fr
  let bHome ← xy.home.lookup l.segment
  let bHome2 ← txtScatterLineTeam homeLinks bHome frameRel (linePositions l "Home")
  let bAway ← xy.away.lookup l.segment
  let bAway2 ← txtScatterLineTeam awayLinks bAway frameRel (linePositions l "Away")
  let bBall ← xy.ball.lookup l.segment
  let bBall2 ← writeBallRow bBall frameRel (lineBall l)
  some ⟨updateBuf xy.home l.segment bHome2, updateBuf xy.away l.segment bAway2,
    updateBuf xy.ball l.segment bBall2⟩

/-- The output of `read_tracking_data_txt`: the six XY buffers
(home_ht1, home_ht2, away_ht1, away_ht2, ball_ht1, ball_ht2). -/
structure TxtTrackingOut where
  home1 : Buf
  home2 : Buf
  away1 : Buf
  away2 : Buf
  ball1 : Buf
  ball2 : Buf

/-- `read_tracking_data_txt` (lines 987-1139) on the default path where the
teamsheets are derived from the tracking file itself: read the time information,
build the links (spec-modelled `add_xIDs` base 0), allocate the
`(number_of_frames, 2 * number_of_players)` NaN buffers per segment, scatter
every line, and return the buffers of segments 1 and 2.  `none` models any
uncaught exception on the way (zero delta, missing framerate, empty roster,
out-of-range index, missing segment key). -/
def readTrackingDataTxt (lines : List TxtLine) : Option TxtTrackingOut := do
  let ti ← readTimeInfo lines
  let periods := ti.1
  let fr ← ti.2.1
  let homeJIDs := (readTeamsheetTxt lines "Home").jID
  let awayJIDs := (readTeamsheetTxt lines "Away").jID
  let nHomeMax ← pyMax (List.range homeJIDs.length)
  let nAwayMax ← pyMax (List.range awayJIDs.length)
  let nHome := nHomeMax + 1
  let nAway := nAwayMax + 1
  let xy0 : TxtXYData :=
    ⟨periods.map (fun p => (p.1, npFull (txtNumFrames p.2 fr) (nHome * 2))),
      periods.map (fun p => (p.1, npFull (txtNumFrames p.2 fr) (nAway * 2))),
      periods.map (fun p => (p.1, npFull (txtNumFrames p.2 fr) 2))⟩
  let xy ← lines.foldlM
    (txtLineStep (linksOfJIDList homeJIDs) (linksOfJIDList awayJIDs) periods fr) xy0
  let home1 ← xy.home.lookup 1
  let home2 ← xy.home.lookup 2
  let away1 ← xy.away.lookup 1
  let away2 ← xy.away.lookup 2
  let ball1 ← xy.ball.lookup 1
  let ball2 ← xy.ball.lookup 2
  some ⟨home1, home2, away1, away2, ball1, ball2⟩

/-- The same txt tracking file with every ball chunk removed. -/
def stripBallChunks (lines : List TxtLine) : List TxtLine :=
  lines.map (fun l => { l with ballChunk := none })

/-- A concrete open event csv line whose team string "2" resolves unambiguously to
the away team (segment "1"). -/
def c1AwayLine : OpenEventLine :=
  ⟨"77", 12, "1", 30, "Pass", "6", "1", "p9", "2", "9",
    "1", "0", "0", "0", "0", "0", "0", "0", "3"⟩

/-- A concrete open event csv line with an empty team string (no clear team
assignment possible), segment "1". -/
def c7Line : OpenEventLine :=
  ⟨"78", 13, "1", 31, "Duel", "7", "2", "", "", "",
    "0", "0", "0", "0", "0", "0", "0", "0", "3"⟩

/-- A concrete xml event whose actor id 5 is on neither roster. -/
def c7XmlEvent : XmlEvent :=
  ⟨some 5, some 61000, some "Pass", none, none, none, none,
    [("IdActor1", "5"), ("Time", "61000")]⟩

/-- Concrete open-csv tracking rows: two players of team 1, "A" (jersey 7), with a
position only at frame 100, and "B" (jersey 9), with a position only at frame
101. -/
def c3Rows : List CsvRow :=
  [⟨some 1, "A", 7, 100, 1, 2, 0⟩,
   ⟨some 1, "B", 9, 101, 3, 4, 0⟩]

/-- The teamsheet `read_teamsheets_from_open_data_csv` derives from `c3Rows` for
team 1. -/
def c3Ts : TeamsheetCsv := ⟨["A", "B"], [7, 9], ["A", "B"], 1⟩

/-- A concrete txt tracking file with two segments of two frames each, one home
and one away player, and no ball chunk on any line. -/
def c9Lines : List TxtLine :=
  [⟨0, 1, [⟨"0", "pH", "7", 1, 2⟩, ⟨"1", "pA", "9", 3, 4⟩], none⟩,
   ⟨40, 1, [⟨"0", "pH", "7", 5, 6⟩, ⟨"1", "pA", "9", 7, 8⟩], none⟩,
   ⟨0, 2, [⟨"0", "pH", "7", 1, 2⟩, ⟨"1", "pA", "9", 3, 4⟩], none⟩,
   ⟨40, 2, [⟨"0", "pH", "7", 5, 6⟩, ⟨"1", "pA", "9", 7, 8⟩], none⟩]

/-- The ball-buffer invariant maintained by the scatter loop of
`read_tracking_data_txt` over a file without ball chunks: every buffer stored
under a segment key still has the row count of the buffer initially stored under
that key, has exactly two columns, and holds the NaN sentinel in every cell. -/
def ballInv (base cur : List (ℤ × Buf)) : Prop :=
  ∀ k b, cur.lookup k = some b →
    ∃ b0, base.lookup k = some b0 ∧ b.rows = b0.rows ∧ b.cols = 2 ∧
      ∀ r c, b.data r c = none

-- ===================================================================== theorems

theorem uniqueFirst_nil {α : Type} [DecidableEq α] : uniqueFirst ([] : List α) = [] := by
  simp [uniqueFirst, uniqueFirstAux]

theorem tdiv_forty : Int.tdiv 1000 40 = 25 := by decide

theorem range_map_getD_eq_zipWith {α β : Type} (d : α) (f : α → α → β) :
    ∀ s : List α,
      (List.range (s.length - 1)).map (fun k => f (s.getD k d) (s.getD (k + 1) d)) =
      List.zipWith f s s.tail
  | [] => by simp
  | [a] => by simp
  | a :: b :: t => by
    have ih := range_map_getD_eq_zipWith d f (b :: t)
    simp only [List.length_cons, Nat.add_sub_cancel, List.tail_cons] at ih ⊢
    rw [List.range_succ_eq_map, List.map_cons, List.map_map]
    simp only [List.getD_cons_zero, List.getD_cons_succ, List.zipWith_cons_cons]
    refine congrArg₂ _ rfl ?_
    rw [← ih]
    apply List.map_congr_left
    intro k _
    simp [List.getD_cons_succ]

theorem createPeriods_eq_periodsZip (v : List ℤ) : createPeriods v = periodsZip v :=
  range_map_getD_eq_zipWith 0 (fun a b => (v.getD a 0, v.getD (b - 1) 0)) (segIdxFull v)

theorem mem_cutIdx {v : List ℤ} {i : ℕ} :
    i ∈ cutIdx v ↔ i < v.length ∧ 1 < diffPrepend v i := by
  simp [cutIdx, List.mem_filter, List.mem_range]

theorem cutIdx_sorted (v : List ℤ) : (cutIdx v).Pairwise (· < ·) :=
  (List.pairwise_lt_range _).filter _

theorem cutIdx_pos {v : List ℤ} {i : ℕ} (h : i ∈ cutIdx v) : i ≠ 0 := by
  rcases mem_cutIdx.mp h with ⟨-, hgap⟩
  intro h0
  rw [h0] at hgap
  simp [diffPrepend] at hgap

theorem firstGap_none_cutIdx {v : List ℤ} (h : firstGap v = none) : cutIdx v = [] := by
  simp only [firstGap, List.find?_eq_none] at h
  simp only [cutIdx, List.filter_eq_nil_iff]
  exact h

theorem firstGap_some_spec {v : List ℤ} {c : ℕ} (h : firstGap v = some c) :
    c < v.length ∧ 1 < diffPrepend v c ∧ ∀ i < c, ¬ 1 < diffPrepend v i := by
  rw [firstGap, List.find?_range_eq_some] at h
  rcases h with ⟨hp, hmem, hmin⟩
  refine ⟨List.mem_range.mp hmem, of_decide_eq_true hp, fun i hi hgap => ?_⟩
  have := hmin i hi
  simp only [Bool.not_eq_eq_eq_not, Bool.not_true, decide_eq_false_iff_not] at this
  exact this hgap

theorem diffPrepend_drop (v : List ℤ) (c j : ℕ) (hj : j ≠ 0) :
    diffPrepend (v.drop c) j = diffPrepend v (c + j) := by
  unfold diffPrepend
  have hcj : c + j ≠ 0 := by omega
  rw [if_neg hj, if_neg hcj]
  have h1 : (v.drop c).getD j 0 = v.getD (c + j) 0 := by
    simp [List.getD_eq_getElem?_getD, List.getElem?_drop]
  have h2 : (v.drop c).getD (j - 1) 0 = v.getD (c + j - 1) 0 := by
    simp only [List.getD_eq_getElem?_getD, List.getElem?_drop]
    have : c + (j - 1) = c + j - 1 := by omega
    rw [this]
  rw [h1, h2]

theorem eq_of_sorted_lt_mem_iff :
    ∀ {l₁ l₂ : List ℕ}, l₁.Pairwise (· < ·) → l₂.Pairwise (· < ·) →
      (∀ a, a ∈ l₁ ↔ a ∈ l₂) → l₁ = l₂ := by
  intro l₁ l₂ h1 h2 hmem
  have hperm : l₁.Perm l₂ := by
    refine (List.perm_ext_iff_of_nodup ?_ ?_).mpr hmem
    · exact h1.imp (fun h => Nat.ne_of_lt h)
    · exact h2.imp (fun h => Nat.ne_of_lt h)
  haveI : IsAntisymm ℕ (· < ·) := ⟨fun a b hab hba => absurd hab (Nat.lt_asymm hba)⟩
  exact List.eq_of_perm_of_sorted hperm h1 h2

theorem cutIdx_drop_shift {v : List ℤ} {c : ℕ} (h : firstGap v = some c) :
    cutIdx v = c :: (cutIdx (v.drop c)).map (fun j => j + c) := by
  rcases firstGap_some_spec h with ⟨hclt, hcgap, hcmin⟩
  apply eq_of_sorted_lt_mem_iff (cutIdx_sorted v)
  · rw [List.pairwise_cons]
    constructor
    · intro b hb
      rcases List.mem_map.mp hb with ⟨j, hj, rfl⟩
      have := cutIdx_pos hj
      omega
    · refine ((cutIdx_sorted (v.drop c)).map _ ?_)
      intro a b hab
      omega
  · intro a
    rw [mem_cutIdx]
    simp only [List.mem_cons, List.mem_map]
    constructor
    · rintro ⟨halt, hagap⟩
      have hac : c ≤ a := by
        by_contra hlt
        exact hcmin a (by omega) hagap
      rcases Nat.eq_or_lt_of_le hac with heq | hlt
      · exact Or.inl heq.symm
      · refine Or.inr ⟨a - c, mem_cutIdx.mpr ⟨?_, ?_⟩, by omega⟩
        · simp only [List.length_drop]
          omega
        · rw [diffPrepend_drop v c (a - c) (by omega)]
          have : c + (a - c) = a := by omega
          rw [this]
          exact hagap
    · rintro (rfl | ⟨j, hj, rfl⟩)
      · exact ⟨hclt, hcgap⟩
      · rcases mem_cutIdx.mp hj with ⟨hjlt, hjgap⟩
        have hj0 := cutIdx_pos hj
        rw [diffPrepend_drop v c j hj0] at hjgap
        simp only [List.length_drop] at hjlt
        constructor
        · omega
        · have : c + j = j + c := by omega
          rw [this] at hjgap
          exact hjgap

theorem splitRuns_of_none {v : List ℤ} (h : firstGap v = none) (hne : v ≠ []) :
    splitRuns v = [v] := by
  rw [splitRuns]
  split
  · simp [hne]
  · rename_i c' heq
    rw [h] at heq
    cases heq

theorem splitRuns_of_some {v : List ℤ} {c : ℕ} (h : firstGap v = some c) :
    splitRuns v = v.take c :: splitRuns (v.drop c) := by
  rw [splitRuns]
  split
  · rename_i heq
    rw [h] at heq
    cases heq
  · rename_i c' heq
    rw [h] at heq
    cases heq
    rfl

theorem headD_eq_getD (l : List ℤ) : l.headD 0 = l.getD 0 0 := by
  cases l <;> simp

theorem getLastD_eq_getD (l : List ℤ) : l.getLastD 0 = l.getD (l.length - 1) 0 := by
  cases l with
  | nil => simp
  | cons a t =>
    rw [List.getLastD_eq_getLast? 0 (a :: t), List.getLast?_eq_getElem?,
      List.getD_eq_getElem?_getD]

theorem zipWith_congr_mem {α β γ : Type} (f g : α → β → γ) :
    ∀ (l₁ : List α) (l₂ : List β), (∀ a ∈ l₁, ∀ b ∈ l₂, f a b = g a b) →
      List.zipWith f l₁ l₂ = List.zipWith g l₁ l₂
  | [], _, _ => by simp
  | _ :: _, [], _ => by simp
  | a :: t₁, b :: t₂, h => by
    simp only [List.zipWith_cons_cons]
    rw [h a (by simp) b (by simp),
      zipWith_congr_mem f g t₁ t₂ (fun x hx y hy => h x (by simp [hx]) y (by simp [hy]))]

theorem take_headD {v : List ℤ} {c : ℕ} (hc : c ≠ 0) : (v.take c).headD 0 = v.getD 0 0 := by
  cases v with
  | nil => simp
  | cons a t =>
    cases c with
    | zero => exact absurd rfl hc
    | succ k => simp [List.take_succ_cons]

theorem take_getLastD {v : List ℤ} {c : ℕ} (hc : c ≠ 0) (hlen : c ≤ v.length) :
    (v.take c).getLastD 0 = v.getD (c - 1) 0 := by
  rw [getLastD_eq_getD]
  have hl : (v.take c).length = c := by
    rw [List.length_take]
    omega
  rw [hl]
  simp only [List.getD_eq_getElem?_getD, List.getElem?_take]
  rw [if_pos (by omega)]

theorem periodsZip_eq_segmentsSpec :
    ∀ (n : ℕ) (v : List ℤ), v.length ≤ n → v ≠ [] → periodsZip v = segmentsSpec v := by
  intro n
  induction n with
  | zero =>
    intro v hle hne
    cases v with
    | nil => exact absurd rfl hne
    | cons a t => simp at hle
  | succ n ih =>
    intro v hle hne
    cases hfg : firstGap v with
    | none =>
      have hcut := firstGap_none_cutIdx hfg
      rw [segmentsSpec, splitRuns_of_none hfg hne]
      simp only [List.map_cons, List.map_nil]
      rw [periodsZip, segIdxFull, hcut]
      simp only [List.nil_append, List.cons_append, List.tail_cons, List.zipWith_cons_cons,
        List.zipWith_nil_right]
      rw [headD_eq_getD, getLastD_eq_getD]
    | some c =>
      rcases firstGap_some_spec hfg with ⟨hclt, hcgap, -⟩
      have hc0 : c ≠ 0 := by
        intro h0
        rw [h0] at hcgap
        simp [diffPrepend] at hcgap
      have hshift := cutIdx_drop_shift hfg
      have hdropne : v.drop c ≠ [] := by
        intro hd
        have hld : (v.drop c).length = v.length - c := List.length_drop c v
        rw [hd] at hld
        simp only [List.length_nil] at hld
        omega
      have hdlen : (v.drop c).length ≤ n := by
        simp only [List.length_drop]
        omega
      have irec := ih (v.drop c) hdlen hdropne
      rw [segmentsSpec, splitRuns_of_some hfg, List.map_cons, ← segmentsSpec, ← irec]
      unfold periodsZip segIdxFull
      rw [hshift]
      simp only [List.cons_append, List.tail_cons, List.zipWith_cons_cons, List.length_drop]
      refine congrArg₂ _ ?_ ?_
      · rw [take_headD hc0, take_getLastD hc0 (Nat.le_of_lt hclt)]
      · have hmap1 : (c :: ((cutIdx (v.drop c)).map (fun j => j + c) ++ [v.length]))
            = ((0 :: cutIdx (v.drop c)) ++ [v.length - c]).map (fun j => j + c) := by
          simp only [List.map_append, List.map_cons, List.map_nil, Nat.zero_add,
            List.cons_append]
          have : v.length - c + c = v.length := by omega
          rw [this]
        have hmap2 : ((cutIdx (v.drop c)).map (fun j => j + c) ++ [v.length])
            = (cutIdx (v.drop c) ++ [v.length - c]).map (fun j => j + c) := by
          simp only [List.map_append, List.map_nil, List.map_cons]
          have : v.length - c + c = v.length := by omega
          rw [this]
        rw [hmap1, hmap2, List.zipWith_map]
        apply zipWith_congr_mem
        intro a _ b hb
        have hb1 : b ≠ 0 := by
          rcases List.mem_append.mp hb with hbc | hbl
          · exact cutIdx_pos hbc
          · simp only [List.mem_singleton] at hbl
            omega
        have hga : (v.drop c).getD a 0 = v.getD (a + c) 0 := by
          simp only [List.getD_eq_getElem?_getD, List.getElem?_drop]
          have : c + a = a + c := by omega
          rw [this]
        have hgb : (v.drop c).getD (b - 1) 0 = v.getD (b + c - 1) 0 := by
          simp only [List.getD_eq_getElem?_getD, List.getElem?_drop]
          have : c + (b - 1) = b + c - 1 := by omega
          rw [this]
        rw [hga, hgb]

/-- `createPeriods` equals the specification-side maximal-run splitter. -/
theorem createPeriods_eq_segmentsSpec (v : List ℤ) (hne : v ≠ []) :
    createPeriods v = segmentsSpec v := by
  rw [createPeriods_eq_periodsZip]
  exact periodsZip_eq_segmentsSpec v.length v (Nat.le_refl _) hne

/-- C6: segment boundaries are detected at every point where the forward difference
of the ordered frame sequence exceeds 1; the resolver returns the inclusive
(start, end) bounds of each maximal run (one period per run), i.e. `createPeriods`
coincides with the maximal-run splitter `segmentsSpec`. -/
theorem claim_C6_segment_boundary_detection (v : List ℤ) (hne : v ≠ []) :
    createPeriods v = segmentsSpec v :=
  createPeriods_eq_segmentsSpec v hne

/-- C6 witness: for the frame sequence [100,101,102,205,206] the resolver yields
exactly the two segments (100,102) and (205,206). -/
theorem claim_C6_segment_boundary_detection_witness :
    createMetadataPeriods [100, 101, 102, 205, 206] = [(100, 102), (205, 206)] ∧
    createPeriods [100, 101, 102, 205, 206] = segmentsSpec [100, 101, 102, 205, 206] := by
  constructor
  · decide
  · exact claim_C6_segment_boundary_detection [100, 101, 102, 205, 206] (by decide)

theorem abs_sub_ne_zero {a b : ℤ} (h : a ≠ b) : |a - b| ≠ 0 := by
  simp only [abs_ne_zero]
  omega

theorem periodsUpdate_framerate (st : TimeInfoState) (l : TxtLine) :
    (timeInfoPeriodsUpdate st l).framerate = st.framerate := by
  unfold timeInfoPeriodsUpdate
  split <;> rfl

theorem periodsUpdate_lastSegment (st : TimeInfoState) (l : TxtLine) :
    (timeInfoPeriodsUpdate st l).lastSegment = st.lastSegment := by
  unfold timeInfoPeriodsUpdate
  split <;> rfl

theorem periodsUpdate_warnings (st : TimeInfoState) (l : TxtLine) :
    (timeInfoPeriodsUpdate st l).warnings = st.warnings := by
  unfold timeInfoPeriodsUpdate
  split <;> rfl

theorem periodsUpdate_of_lookup {st : TimeInfoState} {l : TxtLine}
    (h : (st.startframes.lookup l.segment).isSome) : timeInfoPeriodsUpdate st l = st := by
  unfold timeInfoPeriodsUpdate
  rw [if_pos h]

theorem timeInfoStep_framerate_first (st : TimeInfoState) (l : TxtLine) (g : ℤ)
    (hg : st.lastGameclock = some g) (hf : st.framerate = none)
    (hne : l.gameclock ≠ g) :
    ∃ stx, timeInfoStep st l = some stx ∧
      stx.lastGameclock = some l.gameclock ∧ stx.lastSegment = some l.segment ∧
      stx.framerate = some (Int.tdiv 1000 |l.gameclock - g|) := by
  simp only [timeInfoStep, hg]
  rw [if_neg (abs_sub_ne_zero hne)]
  have hm : (timeInfoPeriodsUpdate st l).framerate = none := by
    rw [periodsUpdate_framerate, hf]
  rw [hm]
  exact ⟨_, rfl, rfl, rfl, rfl⟩

theorem timeInfoStep_framerate_agree (st : TimeInfoState) (l : TxtLine) (g : ℤ)
    (hg : st.lastGameclock = some g)
    (hf : st.framerate = some (Int.tdiv 1000 |l.gameclock - g|))
    (hne : l.gameclock ≠ g) :
    ∃ stx, timeInfoStep st l = some stx ∧
      stx.lastGameclock = some l.gameclock ∧ stx.lastSegment = some l.segment ∧
      stx.framerate = st.framerate ∧ stx.warnings = st.warnings := by
  simp only [timeInfoStep, hg]
  rw [if_neg (abs_sub_ne_zero hne)]
  have hm : (timeInfoPeriodsUpdate st l).framerate =
      some (Int.tdiv 1000 |l.gameclock - g|) := by
    rw [periodsUpdate_framerate, hf]
  rw [hm]
  have hcond : ¬ (Int.tdiv 1000 |l.gameclock - g| ≠
      Int.tdiv 1000 |l.gameclock - g| ∧
      (timeInfoPeriodsUpdate st l).lastSegment = some l.segment) := by
    intro hc
    exact hc.1 rfl
  dsimp only
  rw [if_neg hcond]
  refine ⟨_, rfl, rfl, rfl, ?_, ?_⟩
  · rw [periodsUpdate_framerate, hf]
  · rw [periodsUpdate_warnings]

theorem foldlM_const_delta (d : ℤ) :
    ∀ (rest : List TxtLine) (st : TimeInfoState) (g : ℤ),
      st.lastGameclock = some g →
      (st.framerate = none ∨ st.framerate = some (Int.tdiv 1000 d)) →
      (∀ l, rest.head? = some l → |l.gameclock - g| = d ∧ l.gameclock ≠ g) →
      rest.Chain' (fun a b => |b.gameclock - a.gameclock| = d ∧ b.gameclock ≠ a.gameclock) →
      ∃ st', rest.foldlM timeInfoStep st = some st' ∧
        st'.framerate = (if rest.isEmpty then st.framerate
          else some (Int.tdiv 1000 d))
  | [], st, g, hg, hf, _, _ => ⟨st, by simp, by simp⟩
  | l :: rest, st, g, hg, hf, hh, hc => by
    rcases hh l rfl with ⟨hdl, hnel⟩
    have hstep : ∃ stx, timeInfoStep st l = some stx ∧
        stx.lastGameclock = some l.gameclock ∧
        stx.framerate = some (Int.tdiv 1000 d) := by
      rcases hf with hf | hf
      · rcases timeInfoStep_framerate_first st l g hg hf hnel with ⟨stx, h1, h2, h3, h4⟩
        exact ⟨stx, h1, h2, by rw [h4, hdl]⟩
      · rcases timeInfoStep_framerate_agree st l g hg (by rw [hf, hdl]) hnel with
          ⟨stx, h1, h2, h3, h4, h5⟩
        exact ⟨stx, h1, h2, by rw [h4, hf]⟩
    rcases hstep with ⟨stx, hse, hsg, hsf⟩
    have hh2 : ∀ l2, rest.head? = some l2 →
        |l2.gameclock - l.gameclock| = d ∧ l2.gameclock ≠ l.gameclock := by
      intro l2 h2
      cases rest with
      | nil => cases h2
      | cons b t =>
        simp only [List.head?_cons, Option.some.injEq] at h2
        subst h2
        exact (List.chain'_cons.mp hc).1
    have hc2 : rest.Chain' (fun a b => |b.gameclock - a.gameclock| = d ∧
        b.gameclock ≠ a.gameclock) := by
      cases rest with
      | nil => exact List.chain'_nil
      | cons b t => exact (List.chain'_cons.mp hc).2
    rcases foldlM_const_delta d rest stx l.gameclock hsg (Or.inr hsf) hh2 hc2 with
      ⟨st', hfold, hfr⟩
    refine ⟨st', ?_, ?_⟩
    · rw [List.foldlM_cons, hse]
      exact hfold
    · rw [hfr]
      cases rest with
      | nil => simpa using hsf
      | cons b t => simp

theorem timeInfoStep_init (l : TxtLine) :
    timeInfoStep timeInfoInit l = some
      { startframes := [(l.segment, l.gameclock)], endframes := [], framerate := none,
        lastGameclock := some l.gameclock, lastSegment := some l.segment,
        warnings := 0 } := rfl

/-- C5 (amended): when no explicit framerate is provided and every consecutive pair
of lines has the same nonzero absolute gameclock delta `d`, the estimated framerate
equals the Python truncation `int(1000 / d)` (not the rounding): this holds both
for the loop state and for the value returned by
`_read_time_information_from_tracking_data_txt`. -/
theorem claim_C5_framerate_estimate (lines : List TxtLine) (d : ℤ)
    (hlen : 2 ≤ lines.length)
    (hchain : lines.Chain'
      (fun a b => |b.gameclock - a.gameclock| = d ∧ b.gameclock ≠ a.gameclock)) :
    ∃ st, timeInfoFold lines = some st ∧
      st.framerate = some (Int.tdiv 1000 d) ∧
      ∀ out, readTimeInfo lines = some out →
        out.2.1 = some (Int.tdiv 1000 d) := by
  cases lines with
  | nil => simp at hlen
  | cons l0 rest =>
    have hrest : rest ≠ [] := by
      intro h
      rw [h] at hlen
      simp at hlen
    have hh : ∀ l, rest.head? = some l →
        |l.gameclock - l0.gameclock| = d ∧ l.gameclock ≠ l0.gameclock := by
      intro l hl
      cases rest with
      | nil => cases hl
      | cons b t =>
        simp only [List.head?_cons, Option.some.injEq] at hl
        subst hl
        exact (List.chain'_cons.mp hchain).1
    have hc2 : rest.Chain' (fun a b => |b.gameclock - a.gameclock| = d ∧
        b.gameclock ≠ a.gameclock) := by
      cases rest with
      | nil => exact List.chain'_nil
      | cons b t => exact (List.chain'_cons.mp hchain).2
    rcases foldlM_const_delta d rest
      { startframes := [(l0.segment, l0.gameclock)], endframes := [], framerate := none,
        lastGameclock := some l0.gameclock, lastSegment := some l0.segment, warnings := 0 }
      l0.gameclock rfl (Or.inl rfl) hh hc2 with ⟨st', hfold, hfr⟩
    have hfre : st'.framerate = some (Int.tdiv 1000 d) := by
      rw [hfr, if_neg]
      simp only [List.isEmpty_iff]
      exact hrest
    have hfl : timeInfoFold (l0 :: rest) = some st' := by
      rw [timeInfoFold, List.foldlM_cons, timeInfoStep_init]
      exact hfold
    refine ⟨st', hfl, hfre, ?_⟩
    intro out hout
    unfold readTimeInfo at hout
    rw [hfl] at hout
    simp only [Option.bind_eq_bind, Option.some_bind] at hout
    rcases Option.bind_eq_some.mp hout with ⟨periods, hP, hsome⟩
    cases hsome
    exact hfre

/-- C5 counterexample: for a file whose consecutive same-segment gameclock deltas
are all 600 ms, the code estimates int(1000/600) = 1 Hz, which differs from
round(1000/600) = 2 Hz: the estimate is not `round(1000 / delta_ms)`. -/
theorem claim_C5_counterexample :
    (readTimeInfo [⟨0, 1, [], none⟩, ⟨600, 1, [], none⟩]).map (fun r => r.2.1) =
      some (some 1) ∧ round ((1000 : ℚ) / 600) = 2 ∧ (1 : ℤ) ≠ 2 := by
  refine ⟨by decide, ?_, by decide⟩
  rw [round_eq]
  norm_num

/-- C5 witness: a txt file whose consecutive gameclock deltas are all 40 ms gets
the estimate int(1000/40) = 25 Hz. -/
theorem claim_C5_framerate_estimate_witness :
    (∃ st, timeInfoFold [⟨0, 1, [], none⟩, ⟨40, 1, [], none⟩, ⟨80, 1, [], none⟩] =
        some st ∧
      st.framerate = some (Int.tdiv 1000 40) ∧
      ∀ out, readTimeInfo [⟨0, 1, [], none⟩, ⟨40, 1, [], none⟩, ⟨80, 1, [], none⟩] =
          some out → out.2.1 = some (Int.tdiv 1000 40)) ∧
    Int.tdiv 1000 40 = 25 :=
  ⟨claim_C5_framerate_estimate [⟨0, 1, [], none⟩, ⟨40, 1, [], none⟩, ⟨80, 1, [], none⟩]
    40 (by decide)
    (List.Chain.cons (by decide) (List.Chain.cons (by decide) List.Chain.nil)),
    tdiv_forty⟩

/-- C8 (amended): when two successive framerate estimates disagree and the two
samples lie in the same segment, parsing does not fail: the iteration succeeds,
one warning is emitted, the stored estimate becomes the latest one (last wins),
and the accumulated period data is unchanged.  (A disagreeing estimate whose delta
spans a segment boundary is instead discarded without a warning.) -/
theorem claim_C8_divergent_framerate_last_wins (st : TimeInfoState) (l : TxtLine)
    (f g : ℤ) (hf : st.framerate = some f) (hg : st.lastGameclock = some g)
    (hseg : st.lastSegment = some l.segment)
    (hne : l.gameclock ≠ g)
    (hdis : f ≠ Int.tdiv 1000 |l.gameclock - g|)
    (hstart : (st.startframes.lookup l.segment).isSome) :
    ∃ st', timeInfoStep st l = some st' ∧
      st'.framerate = some (Int.tdiv 1000 |l.gameclock - g|) ∧
      st'.warnings = st.warnings + 1 ∧
      st'.startframes = st.startframes ∧ st'.endframes = st.endframes := by
  simp only [timeInfoStep, hg]
  rw [if_neg (abs_sub_ne_zero hne), periodsUpdate_of_lookup hstart, hf]
  dsimp only
  rw [if_pos ⟨hdis, hseg⟩]
  exact ⟨_, rfl, rfl, rfl, rfl, rfl⟩

/-- C8 counterexample: for segment-1 gameclocks 0, 40 followed by segment-2
gameclock 1000, the successive estimates are 25 Hz (delta 40) and then 1 Hz
(delta 960); they disagree, yet no warning is emitted and the stored estimate
stays 25 Hz — the latest estimate is not adopted across a segment boundary. -/
theorem claim_C8_counterexample :
    (timeInfoFold [⟨0, 1, [], none⟩, ⟨40, 1, [], none⟩, ⟨1000, 2, [], none⟩]).map
        (fun st => (st.framerate, st.warnings)) = some (some 25, 0) ∧
    Int.tdiv 1000 |(1000 : ℤ) - 40| = 1 ∧ (25 : ℤ) ≠ 1 :=
  ⟨by decide, by decide, by decide⟩

/-- C8 witness: a state with estimate 2 Hz and last gameclock 500 in segment 1,
stepped with a segment-1 line at gameclock 540 (delta 40, estimate 25 Hz),
succeeds, warns once, stores 25 Hz, and leaves the period data unchanged. -/
theorem claim_C8_divergent_framerate_last_wins_witness :
    ∃ st', timeInfoStep ⟨[(1, 0)], [], some 2, some 500, some 1, 0⟩
        ⟨540, 1, [], none⟩ = some st' ∧
      st'.framerate = some 25 ∧ st'.warnings = 1 ∧
      st'.startframes = [(1, 0)] ∧ st'.endframes = [] := by
  rcases claim_C8_divergent_framerate_last_wins
      ⟨[(1, 0)], [], some 2, some 500, some 1, 0⟩ ⟨540, 1, [], none⟩ 2 500
      rfl rfl rfl (by decide) (by decide) (by decide) with ⟨st', h1, h2, h3, h4, h5⟩
  refine ⟨st', h1, ?_, ?_, h4, h5⟩
  · rw [h2]
    decide
  · rw [h3]

theorem timeInfoStep_some_of_ne (st : TimeInfoState) (l : TxtLine) (g : ℤ)
    (hg : st.lastGameclock = some g) (hne : l.gameclock ≠ g) :
    ∃ stx, timeInfoStep st l = some stx ∧ stx.lastGameclock = some l.gameclock := by
  simp only [timeInfoStep, hg]
  rw [if_neg (abs_sub_ne_zero hne)]
  cases hm : (timeInfoPeriodsUpdate st l).framerate with
  | none =>
    exact ⟨_, rfl, rfl⟩
  | some f =>
    dsimp only
    split
    · exact ⟨_, rfl, rfl⟩
    · exact ⟨_, rfl, rfl⟩

theorem timeInfoStep_none_of_eq (st : TimeInfoState) (l : TxtLine) (g : ℤ)
    (hg : st.lastGameclock = some g) (heq : l.gameclock = g) :
    timeInfoStep st l = none := by
  simp only [timeInfoStep, hg]
  rw [if_pos]
  simp [heq]

theorem foldlM_isSome_iff :
    ∀ (rest : List TxtLine) (st : TimeInfoState) (g : ℤ), st.lastGameclock = some g →
      ((rest.foldlM timeInfoStep st).isSome ↔
        (∀ l, rest.head? = some l → l.gameclock ≠ g) ∧
        rest.Chain' (fun a b => b.gameclock ≠ a.gameclock))
  | [], st, g, hg => by simp
  | l :: rest, st, g, hg => by
    rw [List.foldlM_cons]
    by_cases hne : l.gameclock = g
    · rw [timeInfoStep_none_of_eq st l g hg hne]
      simp only [Option.bind_eq_bind, Option.none_bind, Option.isSome_none,
        Bool.false_eq_true, false_iff]
      intro hc
      exact (hc.1 l rfl) hne
    · rcases timeInfoStep_some_of_ne st l g hg hne with ⟨stx, hse, hsg⟩
      rw [hse]
      simp only [Option.bind_eq_bind, Option.some_bind]
      rw [foldlM_isSome_iff rest stx l.gameclock hsg]
      constructor
      · rintro ⟨hh, hc⟩
        refine ⟨fun l2 h2 => by cases h2; exact hne, ?_⟩
        rw [List.chain'_cons']
        exact ⟨fun b hb => hh b (by simpa using hb), hc⟩
      · rintro ⟨hh, hc⟩
        rw [List.chain'_cons'] at hc
        exact ⟨fun b hb => hc.1 b (by simpa using hb), hc.2⟩

/-- C10: the framerate division `1000 / delta` is unguarded, so the loop of
`_read_time_information_from_tracking_data_txt` completes exactly when every two
consecutive lines carry distinct gameclocks; in a file with two consecutive lines
of equal gameclock the computation fails (`ZeroDivisionError`) rather than
producing an estimate, and `readTimeInfo` returns nothing. -/
theorem claim_C10_unguarded_division (lines : List TxtLine) :
    ((timeInfoFold lines).isSome ↔
      lines.Chain' (fun a b => b.gameclock ≠ a.gameclock)) ∧
    (¬ lines.Chain' (fun a b => b.gameclock ≠ a.gameclock) →
      readTimeInfo lines = none) := by
  have hiff : (timeInfoFold lines).isSome ↔
      lines.Chain' (fun a b => b.gameclock ≠ a.gameclock) := by
    cases lines with
    | nil => simp [timeInfoFold]
    | cons l0 rest =>
      rw [timeInfoFold, List.foldlM_cons, timeInfoStep_init]
      simp only [Option.bind_eq_bind, Option.some_bind]
      rw [foldlM_isSome_iff rest _ l0.gameclock rfl]
      rw [List.chain'_cons']
      constructor
      · rintro ⟨hh, hc⟩
        exact ⟨fun b hb => hh b (by simpa using hb), hc⟩
      · rintro ⟨hh, hc⟩
        exact ⟨fun b hb => hh b (by simpa using hb), hc⟩
  refine ⟨hiff, fun hnc => ?_⟩
  have hnone : timeInfoFold lines = none := by
    rcases h : timeInfoFold lines with _ | st
    · rfl
    · exact absurd (hiff.mp (by rw [h]; rfl)) hnc
  unfold readTimeInfo
  rw [hnone]
  rfl

theorem mem_uniqueFirstAux {α : Type} [DecidableEq α] :
    ∀ (l : List α) (seen : List α) (a : α),
      a ∈ uniqueFirstAux seen l ↔ a ∈ l ∧ a ∉ seen
  | [], seen, a => by simp [uniqueFirstAux]
  | x :: xs, seen, a => by
    by_cases hx : x ∈ seen
    · rw [uniqueFirstAux, if_pos hx, mem_uniqueFirstAux xs seen a]
      simp only [List.mem_cons]
      constructor
      · rintro ⟨h1, h2⟩
        exact ⟨Or.inr h1, h2⟩
      · rintro ⟨h1 | h1, h2⟩
        · subst h1
          exact absurd hx h2
        · exact ⟨h1, h2⟩
    · rw [uniqueFirstAux, if_neg hx]
      simp only [List.mem_cons, mem_uniqueFirstAux xs (x :: seen) a]
      constructor
      · rintro (rfl | ⟨h1, h2⟩)
        · exact ⟨Or.inl rfl, hx⟩
        · exact ⟨Or.inr h1, fun hs => h2 (Or.inr hs)⟩
      · rintro ⟨rfl | h1, h2⟩
        · exact Or.inl rfl
        · by_cases hax : a = x
          · exact Or.inl hax
          · refine Or.inr ⟨h1, fun hs => ?_⟩
            rcases hs with h | h
            exacts [hax h, h2 h]

theorem mem_uniqueFirst {α : Type} [DecidableEq α] (l : List α) (a : α) :
    a ∈ uniqueFirst l ↔ a ∈ l := by
  rw [uniqueFirst, mem_uniqueFirstAux]
  simp

theorem lookup_isSome_mem {α β : Type} [DecidableEq α] :
    ∀ (d : List (α × β)) (k : α), (d.lookup k).isSome = true ↔ k ∈ d.map Prod.fst
  | [], k => by simp
  | (a, b) :: d, k => by
    by_cases hk : k = a
    · subst hk
      simp [List.lookup]
    · have hba : (k == a) = false := by simp [hk]
      simp only [List.lookup, hba, List.map_cons, List.mem_cons]
      rw [lookup_isSome_mem d k]
      simp [hk]

theorem mem_keys_dictSet {α β : Type} [DecidableEq α] (d : List (α × β)) (k : α)
    (v : β) (a : α) :
    a ∈ (dictSet d k v).map Prod.fst ↔ a ∈ d.map Prod.fst ∨ a = k := by
  unfold dictSet
  split
  · rename_i hin
    have hk : k ∈ d.map Prod.fst := (lookup_isSome_mem d k).mp hin
    rw [List.map_map]
    have he : (Prod.fst ∘ fun p : α × β => if p.1 = k then (k, v) else p) =
        Prod.fst := by
      funext p
      simp only [Function.comp_apply]
      split
      · rename_i hp
        exact hp.symm
      · rfl
    rw [he]
    constructor
    · exact Or.inl
    · rintro (h | rfl)
      exacts [h, hk]
  · simp [List.mem_append]

theorem mem_keys_foldl_dictSet :
    ∀ (cs : List PlayerChunk) (d : List (String × (ℚ × ℚ))) (s : String),
      s ∈ (cs.foldl (fun d c => dictSet d c.jID (c.x, c.y)) d).map Prod.fst ↔
        s ∈ d.map Prod.fst ∨ ∃ c ∈ cs, c.jID = s
  | [], d, s => by simp
  | c :: cs, d, s => by
    rw [List.foldl_cons, mem_keys_foldl_dictSet cs _ s, mem_keys_dictSet]
    simp only [List.mem_cons]
    constructor
    · rintro ((h | h) | ⟨c2, hc2, he⟩)
      · exact Or.inl h
      · exact Or.inr ⟨c, Or.inl rfl, h.symm⟩
      · exact Or.inr ⟨c2, Or.inr hc2, he⟩
    · rintro (h | ⟨c2, (rfl | hc2), he⟩)
      · exact Or.inl (Or.inl h)
      · exact Or.inl (Or.inr he.symm)
      · exact Or.inr ⟨c2, hc2, he⟩

theorem mem_keys_linePositions (l : TxtLine) (team : String) (s : String) :
    s ∈ (linePositions l team).map Prod.fst ↔
      ∃ c ∈ l.playerChunks, teamOfCode c.teamCode = team ∧ c.jID = s := by
  unfold linePositions
  rw [mem_keys_foldl_dictSet]
  simp only [List.map_nil, List.not_mem_nil, false_or, List.mem_filter]
  constructor
  · rintro ⟨c, ⟨hc, ht⟩, he⟩
    exact ⟨c, hc, of_decide_eq_true ht, he⟩
  · rintro ⟨c, hc, ht, he⟩
    exact ⟨c, ⟨hc, decide_eq_true ht⟩, he⟩

theorem mem_jerseyNumbersTxt (lines : List TxtLine) (team : String) (s : String) :
    s ∈ jerseyNumbersTxt lines team ↔
      ∃ l ∈ lines, ∃ c ∈ l.playerChunks, teamOfCode c.teamCode = team ∧ c.jID = s := by
  unfold jerseyNumbersTxt
  rw [mem_uniqueFirst]
  rw [List.mem_flatten]
  constructor
  · rintro ⟨grp, hg, hs⟩
    rcases List.mem_map.mp hg with ⟨l, hl, rfl⟩
    exact ⟨l, hl, (mem_keys_linePositions l team s).mp hs⟩
  · rintro ⟨l, hl, hc⟩
    exact ⟨(linePositions l team).map Prod.fst, List.mem_map_of_mem _ hl,
      (mem_keys_linePositions l team s).mpr hc⟩

theorem charListLe_total : ∀ a b, charListLe a b = true ∨ charListLe b a = true
  | [], _ => Or.inl rfl
  | _ :: _, [] => Or.inr rfl
  | a :: as, b :: bs => by
    by_cases hab : a.toNat < b.toNat
    · left
      simp [charListLe, hab]
    · by_cases hba : b.toNat < a.toNat
      · right
        simp [charListLe, hba]
      · rcases charListLe_total as bs with h | h
        · left
          simp [charListLe, hab, hba, h]
        · right
          simp [charListLe, hab, hba, h]

theorem charListLe_trans : ∀ a b c, charListLe a b = true → charListLe b c = true →
    charListLe a c = true
  | [], _, _ => fun _ _ => rfl
  | _ :: _, [], _ => fun h _ => by cases h
  | _ :: _, _ :: _, [] => fun _ h => by cases h
  | a :: as, b :: bs, c :: cs => fun h1 h2 => by
    simp only [charListLe] at h1 h2 ⊢
    by_cases hab : a.toNat < b.toNat
    · by_cases hbc : b.toNat < c.toNat
      · rw [if_pos (by omega)]
      · rw [if_pos hab] at h1
        rw [if_neg hbc] at h2
        by_cases hcb : c.toNat < b.toNat
        · rw [if_pos hcb] at h2
          cases h2
        · rw [if_pos (by omega)]
    · rw [if_neg hab] at h1
      by_cases hba : b.toNat < a.toNat
      · rw [if_pos hba] at h1
        cases h1
      · rw [if_neg hba] at h1
        by_cases hbc : b.toNat < c.toNat
        · rw [if_pos (by omega)]
        · rw [if_neg hbc] at h2
          by_cases hcb : c.toNat < b.toNat
          · rw [if_pos hcb] at h2
            cases h2
          · rw [if_neg hcb] at h2
            rw [if_neg (by omega), if_neg (by omega)]
            exact charListLe_trans as bs cs h1 h2

instance pyStrLeTotal : IsTotal String (fun a b => pyStrLe a b = true) :=
  ⟨fun a b => charListLe_total a.data b.data⟩

instance pyStrLeTrans : IsTrans String (fun a b => pyStrLe a b = true) :=
  ⟨fun a b c => charListLe_trans a.data b.data c.data⟩

/-- C4 (amended): a teamsheet derived by the txt tracking reader holds the distinct
jerseys seen for the team, sorted as Python sorts strings — ascending
lexicographically by code point, then converted with `int` — with placeholder
names "player i"; the open csv reader instead lists the distinct jerseys in order
of first appearance and uses the actual player ids as names (no sorting, no
placeholders).  Sequential indices are assigned afterwards by the callers. -/
theorem claim_C4_teamsheet_construction (lines : List TxtLine) (team : String)
    (rows : List CsvRow) (teamId : ℚ) (ts : TeamsheetCsv)
    (hts : readTeamsheetCsv rows teamId = some ts) :
    ((readTeamsheetTxt lines team).jID =
        (sortStrings (jerseyNumbersTxt lines team)).map pyIntOfString ∧
      (∀ s, s ∈ sortStrings (jerseyNumbersTxt lines team) ↔
        ∃ l ∈ lines, ∃ c ∈ l.playerChunks, teamOfCode c.teamCode = team ∧ c.jID = s) ∧
      List.Pairwise (fun a b => pyStrLe a b = true)
        (sortStrings (jerseyNumbersTxt lines team)) ∧
      (readTeamsheetTxt lines team).player =
        (List.range (sortStrings (jerseyNumbersTxt lines team)).length).map
          (fun i => "player " ++ toString i)) ∧
    (ts.player = ts.pID ∧ ts.tID = teamId ∧
      (∀ q, q ∈ ts.jID ↔ ∃ r ∈ rows, r.team_id = some teamId ∧ r.jersey_no = q) ∧
      (∀ p, p ∈ ts.player ↔ ∃ r ∈ rows, r.team_id = some teamId ∧ r.player_id = p)) := by
  constructor
  · refine ⟨rfl, ?_, ?_, rfl⟩
    · intro s
      simp only [sortStrings]
      rw [(List.perm_insertionSort (fun a b => pyStrLe a b = true)
        (jerseyNumbersTxt lines team)).mem_iff]
      exact mem_jerseyNumbersTxt lines team s
    · exact List.sorted_insertionSort (fun a b => pyStrLe a b = true) _
  · unfold readTeamsheetCsv at hts
    dsimp only at hts
    split at hts
    · cases hts
      refine ⟨rfl, rfl, ?_, ?_⟩
      · intro q
        rw [mem_uniqueFirst]
        constructor
        · intro hq
          rcases List.mem_map.mp hq with ⟨r, hr, rfl⟩
          rw [List.mem_filter] at hr
          exact ⟨r, hr.1, of_decide_eq_true hr.2, rfl⟩
        · rintro ⟨r, hr, ht, rfl⟩
          exact List.mem_map_of_mem _ (List.mem_filter.mpr ⟨hr, decide_eq_true ht⟩)
      · intro p
        rw [mem_uniqueFirst]
        constructor
        · intro hp
          rcases List.mem_map.mp hp with ⟨r, hr, rfl⟩
          rw [List.mem_filter] at hr
          exact ⟨r, hr.1, of_decide_eq_true hr.2, rfl⟩
        · rintro ⟨r, hr, ht, rfl⟩
          exact List.mem_map_of_mem _ (List.mem_filter.mpr ⟨hr, decide_eq_true ht⟩)
    · cases hts

/-- C4 counterexample: with home jerseys "9" and "10" the txt teamsheet lists
jID = [10, 9] ("10" sorts before "9" as a string), which is not ascending; the csv
teamsheet lists jerseys in first-appearance order [10, 7] (unsorted) with the
actual player ids, not placeholder names. -/
theorem claim_C4_counterexample :
    (readTeamsheetTxt
        [⟨0, 1, [⟨"0", "p1", "9", 0, 0⟩, ⟨"0", "p2", "10", 0, 0⟩], none⟩]
        "Home").jID = [10, 9] ∧
    ¬ ((10 : ℤ) ≤ 9) ∧
    readTeamsheetCsv
        [⟨some 1, "a", 10, 100, 0, 0, 0⟩, ⟨some 1, "b", 7, 100, 0, 0, 0⟩] 1 =
      some ⟨["a", "b"], [10, 7], ["a", "b"], 1⟩ ∧
    ¬ ((10 : ℚ) ≤ 7) ∧
    ["a", "b"] ≠ ["player 0", "player 1"] := by
  refine ⟨by decide, by decide, by decide, by decide, by decide⟩

/-- C4 witness: on a concrete txt line with home jerseys "9","10" the placeholder
names are synthesized, and on concrete csv rows the jersey membership matches the
team's rows. -/
theorem claim_C4_teamsheet_construction_witness :
    (readTeamsheetTxt [⟨0, 1, [⟨"0", "p1", "9", 0, 0⟩, ⟨"0", "p2", "10", 0, 0⟩], none⟩]
      "Home").player = ["player 0", "player 1"] ∧
    ∀ q, q ∈ ([10, 7] : List ℚ) ↔
      ∃ r ∈ ([⟨some 1, "a", 10, 100, 0, 0, 0⟩,
          ⟨some 1, "b", 7, 100, 0, 0, 0⟩] : List CsvRow),
        r.team_id = some 1 ∧ r.jersey_no = q := by
  have h := claim_C4_teamsheet_construction
    [⟨0, 1, [⟨"0", "p1", "9", 0, 0⟩, ⟨"0", "p2", "10", 0, 0⟩], none⟩] "Home"
    [⟨some 1, "a", 10, 100, 0, 0, 0⟩, ⟨some 1, "b", 7, 100, 0, 0, 0⟩] 1
    ⟨["a", "b"], [10, 7], ["a", "b"], 1⟩ (by decide)
  constructor
  · rw [h.1.2.2.2]
    decide
  · exact h.2.2.2.1

theorem xmlEventTeam_always_none (homePIDs awayPIDs : List (Option ℤ))
    (pID : Option ℤ) :
    xmlEventTeam (linksPIDToTeam homePIDs awayPIDs) pID = "None" := by
  unfold xmlEventTeam getAndConvertStr pyDictGet linksPIDToTeam
  cases pID <;> simp [pyKeyOfOptInt, List.find?]

/-- C1 (code bug): an event whose team string resolves unambiguously to the away
team is accumulated only in the away bins, but `read_open_event_data_csv`
assembles ALL FOUR returned Events objects from the home team's bins (lines
277-288): on a file with a single away event, the away bins hold that event while
the returned away-team tables equal the (empty) home tables. -/
theorem claim_C1_away_events_built_from_home_bins :
    ∃ bins, openEventFold [c1AwayLine] = some bins ∧
      bins 2 "1" = [(readOpenEventCsvSingleLine c1AwayLine).1] ∧
      bins 1 "1" = [] ∧
      readOpenEventDataCsv [c1AwayLine] =
        some (bins 1 "1", bins 1 "2", bins 1 "1", bins 1 "2") ∧
      (bins 1 "1", bins 1 "2", bins 1 "1", bins 1 "2").2.2.1 ≠ bins 2 "1" := by
  refine ⟨_, rfl, rfl, rfl, rfl, ?_⟩
  intro h
  exact List.noConfusion h

/-- C7: an event whose actor cannot be resolved to a known team is appended once
to BOTH teams' event tables for its segment, with identical field values: in the
open csv reader an empty team string appends the same parsed event to both team
bins (and touches nothing else); in the xml reader the team resolves to "None"
and every column of both teams receives the same values. -/
theorem claim_C7_ambiguous_event_to_both_teams
    (bins : OpenEventBins) (l : OpenEventLine)
    (hteam : l.tID = "") (hseg : l.current_phase = "1" ∨ l.current_phase = "2")
    (homePIDs awayPIDs : List (Option ℤ)) (home away : XmlEventColumns)
    (e : XmlEvent) (t : ℤ) (htime : e.time = some t)
    (hpid : e.pID ∉ homePIDs ∧ e.pID ∉ awayPIDs) :
    (∃ bins', openEventStep bins l = some bins' ∧
      bins' 1 l.current_phase =
        bins 1 l.current_phase ++ [(readOpenEventCsvSingleLine l).1] ∧
      bins' 2 l.current_phase =
        bins 2 l.current_phase ++ [(readOpenEventCsvSingleLine l).1] ∧
      ∀ t2 s2, ¬ ((t2 = 1 ∨ t2 = 2) ∧ s2 = l.current_phase) →
        bins' t2 s2 = bins t2 s2) ∧
    (xmlEventStep (linksPIDToTeam homePIDs awayPIDs) home away e =
      some (appendXmlEvent home e ((t : ℚ) / 1000)
          (npFloor ((t : ℚ) / 1000 / 60))
          (npFloor ((t : ℚ) / 1000 - npFloor ((t : ℚ) / 1000 / 60) * 60)),
        appendXmlEvent away e ((t : ℚ) / 1000)
          (npFloor ((t : ℚ) / 1000 / 60))
          (npFloor ((t : ℚ) / 1000 - npFloor ((t : ℚ) / 1000 / 60) * 60)))) := by
  constructor
  · refine ⟨(fun t2 s2 =>
        if (t2 = 1 ∨ t2 = 2) ∧ s2 = l.current_phase
        then bins t2 s2 ++ [(readOpenEventCsvSingleLine l).1] else bins t2 s2),
      ?_, ?_, ?_, ?_⟩
    · unfold openEventStep
      have hh : l.current_phase ≠ "current_phase" := by
        rcases hseg with h | h <;> rw [h] <;> decide
      rw [if_neg hh]
      dsimp only
      rw [show (readOpenEventCsvSingleLine l).2.2 = l.current_phase from rfl,
        show (readOpenEventCsvSingleLine l).2.1 = l.tID from rfl,
        if_pos hseg, if_neg (fun hne => hne hteam)]
    · dsimp only
      rw [if_pos ⟨Or.inl rfl, rfl⟩]
    · dsimp only
      rw [if_pos ⟨Or.inr rfl, rfl⟩]
    · intro t2 s2 hn
      dsimp only
      rw [if_neg hn]
  · unfold xmlEventStep
    rw [xmlEventTeam_always_none, htime]
    dsimp only
    rw [if_pos rfl]

/-- C7 witness: a concrete teamless csv line is appended once to each team bin with
equal contents, and a concrete xml event with an unrostered actor id produces
identical home and away column tables. -/
theorem claim_C7_ambiguous_event_to_both_teams_witness :
    (∃ bins', openEventStep emptyOpenEventBins c7Line = some bins' ∧
      bins' 1 "1" = bins' 2 "1" ∧ bins' 1 "1" ≠ []) ∧
    (∃ pr, xmlEventStep (linksPIDToTeam [some 1] [some 2]) emptyXmlEventColumns
        emptyXmlEventColumns c7XmlEvent = some pr ∧ pr.1 = pr.2) := by
  have h := claim_C7_ambiguous_event_to_both_teams emptyOpenEventBins c7Line rfl
    (Or.inl rfl) [some 1] [some 2] emptyXmlEventColumns emptyXmlEventColumns
    c7XmlEvent 61000 rfl (by decide)
  rcases h with ⟨⟨bins', h1, h2, h3, h4⟩, hx⟩
  constructor
  · refine ⟨bins', h1, ?_, ?_⟩
    · show bins' 1 c7Line.current_phase = bins' 2 c7Line.current_phase
      rw [h2, h3]
      rfl
    · show bins' 1 c7Line.current_phase ≠ []
      rw [h2]
      intro hc
      exact List.noConfusion hc
  · exact ⟨_, hx, rfl⟩

theorem sliceAssignCol_eq {b : Buf} {start stop : ℕ} {c : ℤ} {vals : List ℚ}
    {b2 : Buf} (h : sliceAssignCol b start stop c vals = some b2) :
    ∃ cn, npIdx b.cols c = some cn ∧ vals.length = stop - start ∧ stop ≤ b.rows ∧
      start ≤ stop ∧ b2.rows = b.rows ∧ b2.cols = b.cols ∧
      ∀ r c2, b2.data r c2 =
        if c2 = cn ∧ start ≤ r ∧ r < stop then some (vals.getD (r - start) 0)
        else b.data r c2 := by
  unfold sliceAssignCol at h
  cases hn : npIdx b.cols c with
  | none =>
    rw [hn] at h
    cases h
  | some cn =>
    rw [hn] at h
    dsimp only at h
    split at h
    · rename_i hc
      cases h
      exact ⟨cn, rfl, hc.1, hc.2.1, hc.2.2, rfl, rfl, fun r c2 => rfl⟩
    · cases h

/-- C2: in the open-format tracking reader, the ball buffer's y column is written
from the same source column (`pos_x`) as the x column: whenever the ball buffer
is produced, every cell of column 1 equals the corresponding cell of column 0. -/
theorem claim_C2_ball_y_copies_x (rows : List CsvRow) (s : ℕ) (b : Buf)
    (h : csvBallBuffer rows s = some b) :
    b.cols = 2 ∧ ∀ r, b.data r 1 = b.data r 0 := by
  unfold csvBallBuffer at h
  rw [Option.bind_eq_bind] at h
  rcases Option.bind_eq_some.mp h with ⟨b1, h1, h2⟩
  rcases sliceAssignCol_eq h1 with ⟨c0, hc0, hl1, hs1, hss1, hr1, hcol1, hd1⟩
  rcases sliceAssignCol_eq h2 with ⟨c1, hc1, hl2, hs2, hss2, hr2, hcol2, hd2⟩
  have e0 : c0 = 0 := Option.some.inj (hc0.symm.trans rfl)
  have e1 : c1 = 1 := by
    have hcc : npIdx b1.cols 1 = some 1 := by
      rw [hcol1]
      rfl
    exact Option.some.inj (hc1.symm.trans hcc)
  subst e0
  subst e1
  constructor
  · rw [hcol2, hcol1]
    rfl
  · intro r
    rw [hd2 r 1, hd2 r 0, hd1 r 0, hd1 r 1]
    by_cases hr : r < b1.rows
    · rw [if_pos ⟨rfl, Nat.zero_le r, hr⟩]
      rw [if_neg (by simp)]
      rw [if_pos ⟨rfl, Nat.zero_le r, by rw [← hr1]; exact hr⟩]
    · rw [if_neg (fun hcon => hr hcon.2.2), if_neg (by simp), if_neg (by simp),
        if_neg (fun hcon => hr (by rw [hr1]; exact hcon.2.2))]
      rfl

/-- C2 witness: a concrete file with two ball rows; both stored ball columns hold
the pos_x values. -/
theorem claim_C2_ball_y_copies_x_witness :
    ∃ b, csvBallBuffer
        [⟨some 4, "ball", 0, 100, 3, 5, 1⟩, ⟨some 4, "ball", 0, 101, 7, 9, 1⟩] 0 =
      some b ∧ b.cols = 2 ∧ ∀ r, b.data r 1 = b.data r 0 := by
  have hs : (csvBallBuffer
      [⟨some 4, "ball", 0, 100, 3, 5, 1⟩, ⟨some 4, "ball", 0, 101, 7, 9, 1⟩]
      0).isSome = true := rfl
  rcases hE : csvBallBuffer
      [⟨some 4, "ball", 0, 100, 3, 5, 1⟩, ⟨some 4, "ball", 0, 101, 7, 9, 1⟩] 0 with _ | b
  · rw [hE] at hs
    cases hs
  · exact ⟨b, rfl, claim_C2_ball_y_copies_x _ 0 b hE⟩

theorem maskSelect_length_eq {α β : Type} :
    ∀ (m : List Bool) (l1 : List α) (l2 : List β), l1.length = l2.length →
      (maskSelect l1 m).length = (maskSelect l2 m).length
  | [], l1, l2, _ => by simp [maskSelect]
  | b :: m, [], [], _ => by simp [maskSelect]
  | b :: m, [], y :: l2, h => by cases h
  | b :: m, x :: l1, [], h => by cases h
  | b :: m, x :: l1, y :: l2, h => by
    have hr := maskSelect_length_eq m l1 l2 (by simpa using h)
    cases b <;> simp [maskSelect, List.zip_cons_cons] at hr ⊢ <;>
      simpa [maskSelect] using hr

theorem maskSelect_sublist {α : Type} :
    ∀ (l : List α) (m : List Bool), (maskSelect l m).Sublist l
  | [], m => by simp [maskSelect]
  | x :: l, [] => by simp [maskSelect]
  | x :: l, b :: m => by
    cases b with
    | false =>
      simp only [maskSelect, List.zip_cons_cons, List.filterMap_cons]
      exact (maskSelect_sublist l m).cons x
    | true =>
      simp only [maskSelect, List.zip_cons_cons, List.filterMap_cons]
      exact (maskSelect_sublist l m).cons₂ x

theorem mem_maskSelect_appearance {period : ℤ × ℤ} :
    ∀ {frames : List ℤ} {z : ℤ},
      z ∈ maskSelect frames (appearanceMask period frames) →
      period.1 ≤ z ∧ z ≤ period.2 := by
  intro frames
  induction frames with
  | nil => intro z h; simp [maskSelect, appearanceMask] at h
  | cons f rest ih =>
    intro z h
    simp only [maskSelect, appearanceMask, List.map_cons, List.zip_cons_cons,
      List.filterMap_cons] at h
    by_cases hf : period.1 ≤ f ∧ f ≤ period.2
    · rw [if_pos (decide_eq_true hf)] at h
      rcases List.mem_cons.mp h with rfl | h2
      · exact hf
      · exact ih (by simpa [maskSelect, appearanceMask] using h2)
    · rw [if_neg (by simpa using hf)] at h
      exact ih (by simpa [maskSelect, appearanceMask] using h)

theorem getLastD_irrel {α : Type} :
    ∀ (l : List α), l ≠ [] → ∀ (d d' : α), l.getLastD d = l.getLastD d'
  | [], h => absurd rfl h
  | [x], _ => fun d d' => rfl
  | x :: y :: rest, _ => fun d d' => by
    simp only [List.getLastD_cons]

theorem getLastD_cons_ne {α : Type} (x : α) (l : List α) (h : l ≠ []) (d : α) :
    (x :: l).getLastD d = l.getLastD d := by
  rw [List.getLastD_cons]
  exact getLastD_irrel l h x d

theorem chain_lt_length_le :
    ∀ (l : List ℤ), l.Chain' (· < ·) → l ≠ [] →
      (l.length : ℤ) ≤ l.getLastD 0 - l.headD 0 + 1
  | [], _, h => absurd rfl h
  | [x], _, _ => by simp
  | x :: y :: rest, hc, _ => by
    rcases List.chain'_cons.mp hc with ⟨hxy, hc2⟩
    have ih := chain_lt_length_le (y :: rest) hc2 (by simp)
    rw [getLastD_cons_ne x (y :: rest) (by simp) 0]
    simp only [List.length_cons, List.headD_cons] at ih ⊢
    omega

theorem chain_lt_full_range :
    ∀ (l : List ℤ), l.Chain' (· < ·) → l ≠ [] →
      (l.length : ℤ) = l.getLastD 0 - l.headD 0 + 1 →
      ∀ z, l.headD 0 ≤ z → z ≤ l.getLastD 0 → z ∈ l
  | [], _, h, _ => absurd rfl h
  | [x], _, _, _ => by
    intro z h1 h2
    simp only [List.headD_cons] at h1
    rw [show ([x] : List ℤ).getLastD 0 = x from rfl] at h2
    have hzx : z = x := le_antisymm h2 h1
    simp [hzx]
  | x :: y :: rest, hc, _, hlen => by
    intro z h1 h2
    rcases List.chain'_cons.mp hc with ⟨hxy, hc2⟩
    rw [getLastD_cons_ne x (y :: rest) (by simp) 0] at hlen h2
    simp only [List.headD_cons] at h1
    simp only [List.headD_cons, List.length_cons] at hlen
    have hle := chain_lt_length_le (y :: rest) hc2 (by simp)
    simp only [List.headD_cons, List.length_cons] at hle
    by_cases hz : z = x
    · exact List.mem_cons.mpr (Or.inl hz)
    · refine List.mem_cons.mpr (Or.inr ?_)
      refine chain_lt_full_range (y :: rest) hc2 (by simp) ?_ z ?_ h2
      · simp only [List.headD_cons, List.length_cons]
        omega
      · simp only [List.headD_cons]
        omega

theorem lookup_updateBuf_self :
    ∀ (l : List (ℤ × Buf)) (k : ℤ) (b : Buf),
      (updateBuf l k b).lookup k = (l.lookup k).map (fun _ => b)
  | [], _, _ => rfl
  | p :: rest, k, b => by
    simp only [updateBuf, List.map_cons]
    by_cases h : p.1 = k
    · rw [if_pos h]
      have hb1 : (k == p.1) = true := by simp [h]
      simp [List.lookup, hb1]
    · rw [if_neg h]
      have hb1 : (k == p.1) = false := by simp [Ne.symm h]
      have ih := lookup_updateBuf_self rest k b
      simp only [updateBuf] at ih
      simp [List.lookup, hb1, ih]

theorem lookup_updateBuf_ne :
    ∀ (l : List (ℤ × Buf)) (k k2 : ℤ) (b : Buf), k2 ≠ k →
      (updateBuf l k b).lookup k2 = l.lookup k2
  | [], _, _, _, _ => rfl
  | p :: rest, k, k2, b, hne => by
    simp only [updateBuf, List.map_cons]
    have ih := lookup_updateBuf_ne rest k k2 b hne
    simp only [updateBuf] at ih
    by_cases h : p.1 = k
    · rw [if_pos h]
      have hb1 : (k2 == k) = false := by simp [hne]
      have hb2 : (k2 == p.1) = false := by simp [h, hne]
      simp [List.lookup, hb1, hb2, ih]
    · rw [if_neg h]
      by_cases h2 : k2 = p.1
      · have hb1 : (k2 == p.1) = true := by simp [h2]
        simp [List.lookup, hb1]
      · have hb1 : (k2 == p.1) = false := by simp [h2]
        simp [List.lookup, hb1, ih]

theorem lookup_ball_init (fr : ℤ) :
    ∀ (ps : List (ℤ × ℤ × ℤ)) (k : ℤ),
      ((ps.map (fun p => (p.1, npFull (txtNumFrames p.2 fr) 2))).lookup k)
        = (ps.lookup k).map (fun q => npFull (txtNumFrames q fr) 2)
  | [], _ => rfl
  | p :: rest, k => by
    simp only [List.map_cons]
    by_cases h : k = p.1
    · have hb1 : (k == p.1) = true := by simp [h]
      simp [List.lookup, hb1]
    · have hb1 : (k == p.1) = false := by simp [h]
      simp [List.lookup, hb1, lookup_ball_init fr rest k]

theorem ballInv_init (periods : List (ℤ × ℤ × ℤ)) (fr : ℤ) :
    ballInv (periods.map (fun p => (p.1, npFull (txtNumFrames p.2 fr) 2)))
      (periods.map (fun p => (p.1, npFull (txtNumFrames p.2 fr) 2))) := by
  intro k b hkb
  refine ⟨b, hkb, rfl, ?_⟩
  rw [lookup_ball_init] at hkb
  rcases hq : periods.lookup k with _ | q
  · rw [hq] at hkb; cases hkb
  · rw [hq] at hkb
    cases hkb
    exact ⟨rfl, fun r c => rfl⟩

theorem ballInv_step (hl aw : ℤ → Option ℕ) (periods : List (ℤ × ℤ × ℤ)) (fr : ℤ)
    (base : List (ℤ × Buf)) (xy xy2 : TxtXYData) (l : TxtLine)
    (hb : l.ballChunk = none)
    (hstep : txtLineStep hl aw periods fr xy l = some xy2)
    (hinv : ballInv base xy.ball) : ballInv base xy2.ball := by
  have hlb : lineBall l = none := by simp [lineBall, hb]
  simp only [txtLineStep, Option.bind_eq_bind] at hstep
  rcases Option.bind_eq_some.mp hstep with ⟨per, hper, hstep⟩
  rcases Option.bind_eq_some.mp hstep with ⟨bH, hbH, hstep⟩
  rcases Option.bind_eq_some.mp hstep with ⟨bH2, hbH2, hstep⟩
  rcases Option.bind_eq_some.mp hstep with ⟨bA, hbA, hstep⟩
  rcases Option.bind_eq_some.mp hstep with ⟨bA2, hbA2, hstep⟩
  rcases Option.bind_eq_some.mp hstep with ⟨bB, hbB, hstep⟩
  rcases Option.bind_eq_some.mp hstep with ⟨bB2, hbB2, hstep⟩
  cases hstep
  obtain ⟨b0, hb0, hrows, hcols, hnone⟩ := hinv l.segment bB hbB
  rw [hlb] at hbB2
  simp only [writeBallRow] at hbB2
  rcases hnx : npIdx bB.rows (frameRelOf l.gameclock per.1 fr) with _ | rn
  · rw [hnx] at hbB2
    dsimp only at hbB2
    cases hbB2
  · rw [hnx] at hbB2
    dsimp only at hbB2
    rw [if_pos hcols] at hbB2
    cases hbB2
    intro k b hkb
    dsimp only at hkb
    by_cases hk : k = l.segment
    · subst hk
      rw [lookup_updateBuf_self] at hkb
      rw [hbB] at hkb
      cases hkb
      refine ⟨b0, hb0, hrows, hcols, ?_⟩
      intro r c
      dsimp only
      by_cases hrc : r = rn ∧ c < 2
      · rw [if_pos hrc]
      · rw [if_neg hrc]
        exact hnone r c
    · rw [lookup_updateBuf_ne xy.ball l.segment k _ hk] at hkb
      exact hinv k b hkb

theorem ballInv_fold (hl aw : ℤ → Option ℕ) (periods : List (ℤ × ℤ × ℤ)) (fr : ℤ)
    (base : List (ℤ × Buf)) :
    ∀ (lines : List TxtLine) (xy xyF : TxtXYData),
      (∀ l ∈ lines, l.ballChunk = none) →
      lines.foldlM (txtLineStep hl aw periods fr) xy = some xyF →
      ballInv base xy.ball → ballInv base xyF.ball
  | [], xy, xyF, _, hfold, hinv => by
    simp only [List.foldlM_nil] at hfold
    cases hfold
    exact hinv
  | l :: rest, xy, xyF, hnb, hfold, hinv => by
    simp only [List.foldlM_cons, Option.bind_eq_bind] at hfold
    rcases Option.bind_eq_some.mp hfold with ⟨xy1, hstep, hrest⟩
    exact ballInv_fold hl aw periods fr base rest xy1 xyF
      (fun x hx => hnb x (List.mem_cons_of_mem _ hx)) hrest
      (ballInv_step hl aw periods fr base xy xy1 l (hnb l (List.mem_cons_self _ _))
        hstep hinv)

/-- C9: parsing a txt tracking file in which no line carries a ball chunk
succeeds (witnessed on a concrete such file), and the returned ball buffers have
the allocated shape — `int((end - start) / 1000 * framerate) + 1` rows for the
respective segment and exactly 2 columns — with every cell equal to the NaN
missing sentinel, since the `ball.get("position", np.nan)` default only ever
writes the sentinel. -/
theorem claim_C9_no_ball_chunks (lines : List TxtLine) (out : TxtTrackingOut)
    (hnb : ∀ l ∈ lines, l.ballChunk = none)
    (hout : readTrackingDataTxt lines = some out) :
    ∃ periods warned fr,
      readTimeInfo lines = some (periods, some fr, warned) ∧
      (∃ p1, periods.lookup 1 = some p1 ∧ out.ball1.rows = txtNumFrames p1 fr) ∧
      (∃ p2, periods.lookup 2 = some p2 ∧ out.ball2.rows = txtNumFrames p2 fr) ∧
      out.ball1.cols = 2 ∧ out.ball2.cols = 2 ∧
      (∀ r c, out.ball1.data r c = none) ∧
      (∀ r c, out.ball2.data r c = none) := by
  simp only [readTrackingDataTxt, Option.bind_eq_bind] at hout
  rcases Option.bind_eq_some.mp hout with ⟨ti, hti, hout⟩
  rcases Option.bind_eq_some.mp hout with ⟨fr, hfr, hout⟩
  rcases Option.bind_eq_some.mp hout with ⟨nH, hnH, hout⟩
  rcases Option.bind_eq_some.mp hout with ⟨nA, hnA, hout⟩
  rcases Option.bind_eq_some.mp hout with ⟨xyF, hxy, hout⟩
  rcases Option.bind_eq_some.mp hout with ⟨h1, hh1, hout⟩
  rcases Option.bind_eq_some.mp hout with ⟨h2, hh2, hout⟩
  rcases Option.bind_eq_some.mp hout with ⟨a1, ha1, hout⟩
  rcases Option.bind_eq_some.mp hout with ⟨a2, ha2, hout⟩
  rcases Option.bind_eq_some.mp hout with ⟨b1, hb1, hout⟩
  rcases Option.bind_eq_some.mp hout with ⟨b2, hb2, hout⟩
  cases hout
  have hinvF := ballInv_fold _ _ ti.1 fr
    (ti.1.map (fun p => (p.1, npFull (txtNumFrames p.2 fr) 2)))
    lines _ xyF hnb hxy (ballInv_init ti.1 fr)
  obtain ⟨b01, hb01, hr1, hc1, hn1⟩ := hinvF 1 b1 hb1
  obtain ⟨b02, hb02, hr2, hc2, hn2⟩ := hinvF 2 b2 hb2
  rw [lookup_ball_init] at hb01 hb02
  refine ⟨ti.1, ti.2.2, fr, by rw [hti, ← hfr], ?_, ?_, hc1, hc2, hn1, hn2⟩
  · rcases hp1 : ti.1.lookup 1 with _ | p1
    · rw [hp1] at hb01; cases hb01
    · rw [hp1] at hb01
      cases hb01
      exact ⟨p1, rfl, hr1⟩
  · rcases hp2 : ti.1.lookup 2 with _ | p2
    · rw [hp2] at hb02; cases hb02
    · rw [hp2] at hb02
      cases hb02
      exact ⟨p2, rfl, hr2⟩

/-- C9 witness: the concrete ball-chunk-free file `c9Lines` parses successfully,
and both returned ball buffers are all-NaN with two columns and the allocated
row counts. -/
theorem claim_C9_no_ball_chunks_witness :
    (∀ l ∈ c9Lines, l.ballChunk = none) ∧
    ∃ out, readTrackingDataTxt c9Lines = some out ∧
      ∃ periods warned fr,
        readTimeInfo c9Lines = some (periods, some fr, warned) ∧
        (∃ p1, periods.lookup 1 = some p1 ∧ out.ball1.rows = txtNumFrames p1 fr) ∧
        (∃ p2, periods.lookup 2 = some p2 ∧ out.ball2.rows = txtNumFrames p2 fr) ∧
        out.ball1.cols = 2 ∧ out.ball2.cols = 2 ∧
        (∀ r c, out.ball1.data r c = none) ∧
        (∀ r c, out.ball2.data r c = none) := by
  refine ⟨by decide, ?_⟩
  have hs : (readTrackingDataTxt c9Lines).isSome = true := by decide
  rcases hE : readTrackingDataTxt c9Lines with _ | out
  · rw [hE] at hs; cases hs
  · exact ⟨out, rfl, claim_C9_no_ball_chunks c9Lines out (by decide) hE⟩

/-- C3 (code bug): the spec requires every per-team coordinate buffer to have
shape (segment frame count, 2 × roster size) and the NaN sentinel in every cell
whose frame/player combination has no source position.  On the concrete file
`c3Rows` the shape part holds (2 frames, 2 players, a 2 × 4 buffer), but the
column computation `(links_jID_to_xID[team][jrsy] - 1) * 2` (source lines
438-439) maps the first roster player — xID 0 under the library's 0-based xID
convention, the same convention line 1058 (`max(links) + 1` as the player count)
relies on — to column -2, which numpy wraps to the LAST player's column pair:
player "B" (xID 1, column pair 2/3) has no row at frame 100, yet the frame-100
cells of columns 2 and 3 hold player "A"'s position, while "A"'s own pair
(columns 0/1) stays NaN. -/
theorem claim_C3_first_player_columns_wrap :
    readTeamsheetCsv c3Rows 1 = some c3Ts
    ∧ linksOfJIDList c3Ts.jID 7 = some 0
    ∧ linksOfJIDList c3Ts.jID 9 = some 1
    ∧ csvPeriod c3Rows 0 = (100, 101)
    ∧ (∀ r ∈ c3Rows, ¬(r.player_id = "B" ∧ r.frame_count = 100))
    ∧ (csvTeamBuffer c3Rows 1 0).map
        (fun b => (b.rows, b.cols, b.data 0 2, b.data 0 3, b.data 0 0, b.data 0 1))
      = some (2, 4, some 1, some 2, none, none) := by
  exact ⟨by decide, by decide, by decide, by decide, by decide, rfl⟩
